import Mathlib

/-!
Shallow embedding of the `peloton-sync-psql` synchronization core
(`src/peloton_sync/data_transformer.py` and `src/peloton_sync/data_loader.py`),
together with theorems settling the frozen claims about it.

Modelling conventions:
- Python JSON-ish values (API payloads) are `JVal`; `dict.get`, `d[k]`, `len`,
  iteration and truthiness are modelled operation-by-operation, each raising
  operation returning `Except PyErr`.
- Exceptions are the `Except PyErr` error channel; a Python `try/except`
  becomes a `match` on that channel.  Only the distinction `ValueError`
  versus any-other-exception is ever observed by the code (in
  `_parse_timestamp`), so `PyErr` records just that much.
- `datetime` objects are `PDT` (an abstract instant plus a tz-awareness flag).
  The external libraries the transformer calls (`dateutil.parser.parse`,
  `datetime.fromtimestamp`, `float(str)`) are collaborator functions passed in
  as an `Externals` record, with no assumption on their behaviour beyond their
  raising discipline; `datetime.fromtimestamp(_, tz=timezone.utc)` yields an
  aware datetime whenever it succeeds, which is encoded in the wrapper.
- The SQLAlchemy session is `PSession`: a committed store plus the current
  (in-transaction) store; `add`/bulk-`delete`/`setattr` act on the current
  store, `commit` publishes it, `rollback` restores the committed one.
  Store-level constraints (not-null, unique) are not modelled: the store
  accepts every row.  The session factory uses `autoflush=False`, but on the
  code paths modelled here no query ever reads a table written earlier in the
  same transaction without an intervening `flush`, so making writes
  immediately visible in `current` is observationally faithful.
- Each SQLAlchemy model's Python-side `__dict__` holds exactly the attributes
  the transformer's constructor call sets; the dynamic
  `for key, value in obj.__dict__.items()` copy loops in the loader are
  therefore embedded as record updates copying exactly those fields.
  Database column defaults (`func.now()`) are applied at insert time.
-/

/-- Python error kinds.  The code only ever distinguishes `ValueError` from
other exceptions (the inner handler of `_parse_timestamp`); `keyError` and
`typeError` (also covering `AttributeError`) are kept for readability. -/
inductive PyErr where
  | keyError (k : String)
  | typeError
  | valueError
  | otherError
deriving Repr, DecidableEq

/-- JSON-ish Python values as they arrive from the Peloton API. -/
inductive JVal where
  | jnull
  | jbool (b : Bool)
  | jnum (n : Int)
  | jstr (s : String)
  | jarr (xs : List JVal)
  | jobj (fields : List (String × JVal))
deriving Repr, Inhabited

mutual

/-- Structural equality on `JVal`, standing in for Python `==` on payload
values (ids are strings in practice, where the two agree). -/
def JVal.beq : JVal → JVal → Bool
  | .jnull, .jnull => true
  | .jbool a, .jbool b => a == b
  | .jnum a, .jnum b => a == b
  | .jstr a, .jstr b => a == b
  | .jarr xs, .jarr ys => JVal.beqList xs ys
  | .jobj xs, .jobj ys => JVal.beqPairs xs ys
  | _, _ => false

/-- Pointwise `JVal.beq` on lists. -/
def JVal.beqList : List JVal → List JVal → Bool
  | [], [] => true
  | x :: xs, y :: ys => JVal.beq x y && JVal.beqList xs ys
  | _, _ => false

/-- Pointwise `JVal.beq` on key/value pair lists. -/
def JVal.beqPairs : List (String × JVal) → List (String × JVal) → Bool
  | [], [] => true
  | (k1, v1) :: xs, (k2, v2) :: ys => k1 == k2 && JVal.beq v1 v2 && JVal.beqPairs xs ys
  | _, _ => false

end

instance : BEq JVal := ⟨JVal.beq⟩

/-- First value bound to key `k` in an association list (Python dicts have
unique keys; first-match lookup is therefore faithful). -/
def jlookup (fs : List (String × JVal)) (k : String) : Option JVal :=
  (fs.find? (fun p => p.1 == k)).map Prod.snd

/-- Python truthiness of a payload value. -/
def JVal.truthy : JVal → Bool
  | .jnull => false
  | .jbool b => b
  | .jnum n => n != 0
  | .jstr s => s != ""
  | .jarr xs => !xs.isEmpty
  | .jobj fs => !fs.isEmpty

/-- `d[k]`: raises `KeyError` when the key is absent, `TypeError` when `d`
is not a dict. -/
def JVal.item (v : JVal) (k : String) : Except PyErr JVal :=
  match v with
  | .jobj fs =>
      match jlookup fs k with
      | some x => .ok x
      | none => .error (.keyError k)
  | _ => .error .typeError

/-- `d.get(k)`: `None` when absent; `AttributeError` when `d` is not a dict. -/
def JVal.get (v : JVal) (k : String) : Except PyErr JVal :=
  match v with
  | .jobj fs => .ok ((jlookup fs k).getD .jnull)
  | _ => .error .typeError

/-- `d.get(k, default)`: the default when absent; `AttributeError` when `d`
is not a dict. -/
def JVal.getD (v : JVal) (k : String) (d : JVal) : Except PyErr JVal :=
  match v with
  | .jobj fs => .ok ((jlookup fs k).getD d)
  | _ => .error .typeError

/-- Iterating a Python value: a list yields its elements, a string its
characters, a dict its keys; anything else raises `TypeError`. -/
def pySeq : JVal → Except PyErr (List JVal)
  | .jarr xs => .ok xs
  | .jstr s => .ok (s.toList.map (fun c => .jstr (String.mk [c])))
  | .jobj fs => .ok (fs.map (fun p => .jstr p.1))
  | _ => .error .typeError

/-- `len(v)`: defined exactly on the iterable values. -/
def pyLen (v : JVal) : Except PyErr Nat :=
  (pySeq v).map List.length

/-- `v[-1]`: last element of a list or string; `KeyError` on a dict
(`-1` is looked up as a key), `TypeError` otherwise. -/
def pyLast : JVal → Except PyErr JVal
  | .jarr xs =>
      match xs.getLast? with
      | some x => .ok x
      | none => .error .otherError
  | .jstr s =>
      match s.toList.getLast? with
      | some c => .ok (.jstr (String.mk [c]))
      | none => .error .otherError
  | .jobj _ => .error (.keyError "-1")
  | _ => .error .typeError

/-- Python `==` against a string literal, as in `workout.status == "COMPLETE"`:
true only for an equal string, false for every other value or type. -/
def pyEqStr (v : JVal) (s : String) : Bool :=
  match v with
  | .jstr t => t == s
  | _ => false

/-- Abstract `datetime`: an instant plus the tz-awareness flag
(`tzinfo is None` in Python is `aware = false`). -/
structure PDT where
  instant : Int
  aware : Bool
deriving Repr, DecidableEq

/-- The external library functions `_parse_timestamp` calls, passed in as
collaborators with no assumptions on their values:
`parse_date` is `dateutil.parser.parse` (may return a naive or aware
datetime, or raise anything); `fromtimestamp_utc` is
`datetime.fromtimestamp(x, tz=timezone.utc)` returning just the instant —
tz-awareness of its result is intrinsic to the `tz=` argument and is added
by the caller; `str_to_float` is `float(s)`, whose only failure is
`ValueError` (hence `Option`). -/
structure Externals where
  parse_date : String → Except PyErr PDT
  fromtimestamp_utc : Int → Except PyErr Int
  str_to_float : String → Option Int

/-- `DataTransformer._parse_timestamp`.  `None` maps to `none`; ints, floats
(and bools, which are `int` instances in Python) go through
`datetime.fromtimestamp(_, tz=timezone.utc)` with any failure swallowed by
the outer handler; strings first try `dateutil.parser.parse` (naive results
get `tzinfo=timezone.utc` substituted), then fall back to
`float(s)`/`fromtimestamp`, where a `ValueError` is swallowed by the inner
handler and every other failure by the outer one; any other type is an
unsupported format.  Every path returns, so the embedding is a total
function into `Option PDT`. -/
def _parse_timestamp (ext : Externals) : JVal → Option PDT
  | .jnull => none
  | .jnum n =>
      match ext.fromtimestamp_utc n with
      | .ok e => some ⟨e, true⟩
      | .error _ => none
  | .jbool b =>
      match ext.fromtimestamp_utc (if b then 1 else 0) with
      | .ok e => some ⟨e, true⟩
      | .error _ => none
  | .jstr s =>
      match ext.parse_date s with
      | .ok dt => some (if dt.aware then dt else { dt with aware := true })
      | .error _ =>
          match ext.str_to_float s with
          | none => none
          | some f =>
              match ext.fromtimestamp_utc f with
              | .ok e => some ⟨e, true⟩
              | .error _ => none
  | .jarr _ => none
  | .jobj _ => none

/-- Row of the `users` table.  `created_at`/`updated_at` are `Option PDT`;
the transformer sets `created_at` from the remote payload and leaves
`updated_at` to the database default. -/
structure User where
  id : JVal
  username : JVal
  email : JVal
  first_name : JVal
  last_name : JVal
  location : JVal
  timezone : JVal
  created_at : Option PDT
  updated_at : Option PDT := none
deriving Repr, Inhabited

/-- Row of the `instructors` table. -/
structure Instructor where
  id : JVal
  name : JVal
  first_name : JVal
  last_name : JVal
  bio : JVal
  image_url : JVal
  created_at : Option PDT := none
  updated_at : Option PDT := none
deriving Repr, Inhabited

/-- Row of the `rides` table. -/
structure Ride where
  id : JVal
  title : JVal
  description : JVal
  instructor_id : JVal
  fitness_discipline : JVal
  fitness_discipline_display_name : JVal
  duration : JVal
  difficulty_estimate : JVal
  difficulty_rating_avg : JVal
  difficulty_rating_count : JVal
  overall_rating_avg : JVal
  overall_rating_count : JVal
  total_workouts : JVal
  original_air_time : Option PDT
  scheduled_start_time : Option PDT
  is_archived : JVal
  is_explicit : JVal
  language : JVal
  location : JVal
  image_url : JVal
  created_at : Option PDT := none
  updated_at : Option PDT := none
deriving Repr, Inhabited

/-- Row of the `workouts` table. -/
structure Workout where
  id : JVal
  user_id : JVal
  ride_id : JVal
  name : JVal
  status : JVal
  fitness_discipline : JVal
  workout_type : JVal
  device_type : JVal
  device_type_display_name : JVal
  platform : JVal
  start_time : Option PDT
  end_time : Option PDT
  created_at_peloton : Option PDT
  device_time_created_at : Option PDT
  timezone : JVal
  total_work : JVal
  leaderboard_rank : JVal
  total_leaderboard_users : JVal
  is_total_work_personal_record : JVal
  has_leaderboard_metrics : JVal
  has_pedaling_metrics : JVal
  metrics_type : JVal
  fitbit_id : JVal
  strava_id : JVal
  title : JVal
  created_at : Option PDT := none
  updated_at : Option PDT := none
deriving Repr, Inhabited

/-- Row of the `workout_performance_summaries` table (the autoincrement `id`
is represented by the row's position; `created_at` by the option field). -/
structure WorkoutPerformanceSummary where
  workout_id : JVal
  avg_cadence : JVal
  avg_heart_rate : JVal
  avg_power : JVal
  avg_resistance : JVal
  avg_speed : JVal
  max_cadence : JVal
  max_heart_rate : JVal
  max_power : JVal
  max_resistance : JVal
  max_speed : JVal
  total_work : JVal
  calories : JVal
  distance : JVal
  seconds_since_pedaling_start : JVal
  instant : Option PDT
  created_at : Option PDT := none
  updated_at : Option PDT := none
deriving Repr, Inhabited

/-- Row of the `workout_performance_metrics` table. -/
structure WorkoutPerformanceMetric where
  workout_id : JVal
  seconds_since_pedaling_start : JVal
  cadence : JVal
  heart_rate : JVal
  power : JVal
  resistance : JVal
  speed : JVal
  created_at : Option PDT := none
deriving Repr, Inhabited

/-- Row of the `workout_achievements` table. -/
structure WorkoutAchievement where
  workout_id : JVal
  achievement_id : JVal
  name : JVal
  description : JVal
  slug : JVal
  image_url : JVal
  created_at : Option PDT := none
deriving Repr, Inhabited

/-- Row of the `sync_logs` ledger table. -/
structure SyncLog where
  user_id : JVal
  sync_type : String
  status : String
  started_at : Option PDT
  completed_at : Option PDT
  workouts_processed : Nat
  workouts_created : Nat
  workouts_updated : Nat
  errors_count : Nat
  error_message : Option String
  created_at : Option PDT := none
deriving Repr, Inhabited

/-- `DataTransformer.transform_user_data`. -/
def transform_user_data (ext : Externals) (d : JVal) : Except PyErr User := do
  let idv ← d.item "id"
  let username ← d.getD "username" (.jstr "")
  let email ← d.get "email"
  let first_name ← d.get "first_name"
  let last_name ← d.get "last_name"
  let location ← d.get "location"
  let tz ← d.get "timezone"
  let created_raw ← d.get "created_at"
  pure { id := idv, username, email, first_name, last_name, location,
         timezone := tz, created_at := _parse_timestamp ext created_raw }

/-- `DataTransformer.transform_instructor_data`. -/
def transform_instructor_data (d : JVal) : Except PyErr Instructor := do
  let idv ← d.item "id"
  let name ← d.getD "name" (.jstr "")
  let first_name ← d.get "first_name"
  let last_name ← d.get "last_name"
  let bio ← d.get "bio"
  let image_url ← d.get "image_url"
  pure { id := idv, name, first_name, last_name, bio, image_url }

/-- `DataTransformer.transform_ride_data`. -/
def transform_ride_data (ext : Externals) (d : JVal) : Except PyErr Ride := do
  let idv ← d.item "id"
  let title ← d.getD "title" (.jstr "")
  let description ← d.get "description"
  let instructor_id ← d.get "instructor_id"
  let fitness_discipline ← d.getD "fitness_discipline" (.jstr "")
  let fdn ← d.get "fitness_discipline_display_name"
  let duration ← d.get "duration"
  let difficulty_estimate ← d.get "difficulty_estimate"
  let difficulty_rating_avg ← d.get "difficulty_rating_avg"
  let difficulty_rating_count ← d.get "difficulty_rating_count"
  let overall_rating_avg ← d.get "overall_rating_avg"
  let overall_rating_count ← d.get "overall_rating_count"
  let total_workouts ← d.get "total_workouts"
  let oat ← d.get "original_air_time"
  let sst ← d.get "scheduled_start_time"
  let is_archived ← d.getD "is_archived" (.jbool false)
  let is_explicit ← d.getD "is_explicit" (.jbool false)
  let language ← d.get "language"
  let location ← d.get "location"
  let image_url ← d.get "image_url"
  pure { id := idv, title, description, instructor_id, fitness_discipline,
         fitness_discipline_display_name := fdn, duration, difficulty_estimate,
         difficulty_rating_avg, difficulty_rating_count, overall_rating_avg,
         overall_rating_count, total_workouts,
         original_air_time := _parse_timestamp ext oat,
         scheduled_start_time := _parse_timestamp ext sst,
         is_archived, is_explicit, language, location, image_url }

/-- `DataTransformer.transform_workout_data`.  The `ride_id` expression is
`workout_data.get("ride", {}).get("id") if workout_data.get("ride") else
None`, evaluated in source order. -/
def transform_workout_data (ext : Externals) (d : JVal) : Except PyErr Workout := do
  let idv ← d.item "id"
  let user_id ← d.get "user_id"
  let rideV ← d.get "ride"
  let ride_id ←
    if rideV.truthy then do
      let rv ← d.getD "ride" (.jobj [])
      rv.get "id"
    else pure .jnull
  let name ← d.get "name"
  let status ← d.getD "status" (.jstr "")
  let fitness_discipline ← d.getD "fitness_discipline" (.jstr "")
  let workout_type ← d.get "workout_type"
  let device_type ← d.get "device_type"
  let dtdn ← d.get "device_type_display_name"
  let platform ← d.get "platform"
  let st ← d.get "start_time"
  let et ← d.get "end_time"
  let cap ← d.get "created_at"
  let dtca ← d.get "device_time_created_at"
  let tz ← d.get "timezone"
  let total_work ← d.get "total_work"
  let leaderboard_rank ← d.get "leaderboard_rank"
  let total_leaderboard_users ← d.get "total_leaderboard_users"
  let itwpr ← d.getD "is_total_work_personal_record" (.jbool false)
  let hlm ← d.getD "has_leaderboard_metrics" (.jbool false)
  let hpm ← d.getD "has_pedaling_metrics" (.jbool false)
  let metrics_type ← d.get "metrics_type"
  let fitbit_id ← d.get "fitbit_id"
  let strava_id ← d.get "strava_id"
  let title ← d.get "title"
  pure { id := idv, user_id, ride_id, name, status, fitness_discipline,
         workout_type, device_type, device_type_display_name := dtdn, platform,
         start_time := _parse_timestamp ext st,
         end_time := _parse_timestamp ext et,
         created_at_peloton := _parse_timestamp ext cap,
         device_time_created_at := _parse_timestamp ext dtca,
         timezone := tz, total_work, leaderboard_rank, total_leaderboard_users,
         is_total_work_personal_record := itwpr,
         has_leaderboard_metrics := hlm, has_pedaling_metrics := hpm,
         metrics_type, fitbit_id, strava_id, title }

/-- `DataTransformer.transform_performance_summary_data`. -/
def transform_performance_summary_data (ext : Externals) (workout_id : JVal)
    (d : JVal) : Except PyErr WorkoutPerformanceSummary := do
  let avg_cadence ← d.get "avg_cadence"
  let avg_heart_rate ← d.get "avg_heart_rate"
  let avg_power ← d.get "avg_power"
  let avg_resistance ← d.get "avg_resistance"
  let avg_speed ← d.get "avg_speed"
  let max_cadence ← d.get "max_cadence"
  let max_heart_rate ← d.get "max_heart_rate"
  let max_power ← d.get "max_power"
  let max_resistance ← d.get "max_resistance"
  let max_speed ← d.get "max_speed"
  let total_work ← d.get "total_work"
  let calories ← d.get "calories"
  let distance ← d.get "distance"
  let ssps ← d.get "seconds_since_pedaling_start"
  let instant ← d.get "instant"
  pure { workout_id, avg_cadence, avg_heart_rate, avg_power, avg_resistance,
         avg_speed, max_cadence, max_heart_rate, max_power, max_resistance,
         max_speed, total_work, calories, distance,
         seconds_since_pedaling_start := ssps,
         instant := _parse_timestamp ext instant }

/-- Loop body of `transform_performance_metrics_data`: one metric sample to
one row (`AttributeError` on a non-dict element, as `metric_data.get`
would raise). -/
def transform_one_metric (workout_id : JVal) (md : JVal) :
    Except PyErr WorkoutPerformanceMetric := do
  let ssps ← md.getD "seconds_since_pedaling_start" (.jnum 0)
  let cadence ← md.get "cadence"
  let heart_rate ← md.get "heart_rate"
  let power ← md.get "power"
  let resistance ← md.get "resistance"
  let speed ← md.get "speed"
  pure { workout_id, seconds_since_pedaling_start := ssps, cadence,
         heart_rate, power, resistance, speed }

/-- `DataTransformer.transform_performance_metrics_data`: iterates the raw
`metrics_data` value (raising `TypeError` if it is not iterable, and
`AttributeError` on non-dict elements, exactly as the Python loop would). -/
def transform_performance_metrics_data (workout_id : JVal) (metrics_data : JVal) :
    Except PyErr (List WorkoutPerformanceMetric) := do
  let items ← pySeq metrics_data
  items.mapM (transform_one_metric workout_id)

/-- Loop body of `transform_achievement_data`: one achievement template to
one row. -/
def transform_one_achievement (workout_id : JVal) (ad : JVal) :
    Except PyErr WorkoutAchievement := do
  let aid ← ad.getD "id" (.jstr "")
  let name ← ad.getD "name" (.jstr "")
  let description ← ad.get "description"
  let slug ← ad.get "slug"
  let image_url ← ad.get "image_url"
  pure { workout_id, achievement_id := aid, name, description, slug, image_url }

/-- `DataTransformer.transform_achievement_data`: same iteration discipline
as the metrics transformer. -/
def transform_achievement_data (workout_id : JVal) (achievements_data : JVal) :
    Except PyErr (List WorkoutAchievement) := do
  let items ← pySeq achievements_data
  items.mapM (transform_one_achievement workout_id)

/-- `DataTransformer.extract_workout_components`: the instructor record is
only ever built from the `instructor` object nested inside a truthy `ride`
object; the workout record is built last, from the whole payload. -/
def extract_workout_components (ext : Externals) (wd : JVal) :
    Except PyErr (Option Instructor × Option Ride × Workout) := do
  let ride_data ← wd.get "ride"
  let pair ←
    if ride_data.truthy then do
      let ride ← transform_ride_data ext ride_data
      let instructor_data ← ride_data.get "instructor"
      if instructor_data.truthy then do
        let inst ← transform_instructor_data instructor_data
        pure (some inst, some ride)
      else
        pure ((none : Option Instructor), some ride)
    else
      pure ((none : Option Instructor), (none : Option Ride))
  let w ← transform_workout_data ext wd
  pure (pair.1, pair.2, w)

/-- The relational store: one list of rows per table.  Constraints
(not-null, unique, foreign keys) are owned by the Persistent Store
collaborator and are not modelled: the store accepts every row. -/
structure Store where
  users : List User := []
  instructors : List Instructor := []
  rides : List Ride := []
  workouts : List Workout := []
  perf_summaries : List WorkoutPerformanceSummary := []
  perf_metrics : List WorkoutPerformanceMetric := []
  achievements : List WorkoutAchievement := []
  sync_logs : List SyncLog := []
deriving Repr, Inhabited

/-- A SQLAlchemy session: the durable committed state plus the current
in-transaction state.  Writes go to `current`; `commit` publishes it,
`rollback` discards it. -/
structure PSession where
  committed : Store
  current : Store
deriving Repr, Inhabited

/-- `session.commit()`. -/
def PSession.commit (s : PSession) : PSession := ⟨s.current, s.current⟩

/-- `session.rollback()`: pending changes are discarded. -/
def PSession.rollback (s : PSession) : PSession := ⟨s.committed, s.committed⟩

/-- Replace the first element satisfying `p` (the row `.first()` returned)
by `f` of it, leaving everything else in place. -/
def updateFirst (p : α → Bool) (f : α → α) : List α → List α
  | [] => []
  | x :: xs => if p x then f x :: xs else x :: updateFirst p f xs

/-- The `sync_user_data` update loop: every attribute the transformer set on
the candidate is copied onto the existing row except `id` alone — in
particular `created_at` IS copied — then `updated_at` is refreshed. -/
def userUpdateFields (ex cand : User) (now : PDT) : User :=
  { cand with id := ex.id, updated_at := some now }

/-- The `upsert_instructor` update loop: candidate attributes are copied
except `id` and `created_at`; `updated_at` is refreshed. -/
def instructorUpdateFields (ex cand : Instructor) (now : PDT) : Instructor :=
  { cand with id := ex.id, created_at := ex.created_at, updated_at := some now }

/-- The `upsert_ride` update loop: same blocklist as instructors. -/
def rideUpdateFields (ex cand : Ride) (now : PDT) : Ride :=
  { cand with id := ex.id, created_at := ex.created_at, updated_at := some now }

/-- The `upsert_workout` update loop: same blocklist as instructors. -/
def workoutUpdateFields (ex cand : Workout) (now : PDT) : Workout :=
  { cand with id := ex.id, created_at := ex.created_at, updated_at := some now }

/-- The performance-summary update loop: candidate attributes are copied
except the autoincrement `id` (here: the row keeps its position) and
`created_at`; `updated_at` is refreshed. -/
def summaryUpdateFields (ex cand : WorkoutPerformanceSummary) (now : PDT) :
    WorkoutPerformanceSummary :=
  { cand with created_at := ex.created_at, updated_at := some now }

/-- `DataLoader.sync_user_data`: fetch, transform, upsert-by-id, flush.
The database default fills `updated_at` at flush for a new row;
`users.created_at` has no default, so it stays as transformed. -/
def sync_user_data (ext : Externals) (now : PDT) (api_user : Except PyErr JVal)
    (sess : PSession) : Except PyErr (User × PSession) := do
  let ud ← api_user
  let cand ← transform_user_data ext ud
  let st := sess.current
  match st.users.find? (fun u => u.id == cand.id) with
  | some ex =>
      let upd := userUpdateFields ex cand now
      let users := updateFirst (fun u => u.id == cand.id) (fun _ => upd) st.users
      pure (upd, { sess with current := { st with users := users } })
  | none =>
      let row := { cand with updated_at := some now }
      pure (row, { sess with current := { st with users := st.users ++ [row] } })

/-- `DataLoader.upsert_instructor`. -/
def upsert_instructor (now : PDT) (st : Store) (cand : Instructor) : Store :=
  match st.instructors.find? (fun i => i.id == cand.id) with
  | some ex =>
      { st with instructors := (updateFirst (fun i => i.id == cand.id)
          (fun _ => instructorUpdateFields ex cand now) st.instructors) }
  | none =>
      { st with instructors :=
          st.instructors ++ [{ cand with created_at := some now, updated_at := some now }] }

/-- `DataLoader.upsert_ride`. -/
def upsert_ride (now : PDT) (st : Store) (cand : Ride) : Store :=
  match st.rides.find? (fun r => r.id == cand.id) with
  | some ex =>
      { st with rides := (updateFirst (fun r => r.id == cand.id)
          (fun _ => rideUpdateFields ex cand now) st.rides) }
  | none =>
      { st with rides :=
          st.rides ++ [{ cand with created_at := some now, updated_at := some now }] }

/-- `DataLoader.upsert_workout`: returns the stored instance and `is_new`. -/
def upsert_workout (now : PDT) (st : Store) (cand : Workout) :
    Store × Workout × Bool :=
  match st.workouts.find? (fun w => w.id == cand.id) with
  | some ex =>
      let upd := workoutUpdateFields ex cand now
      ({ st with workouts := (updateFirst (fun w => w.id == cand.id)
           (fun _ => upd) st.workouts) }, upd, false)
  | none =>
      let row := { cand with created_at := some now, updated_at := some now }
      ({ st with workouts := st.workouts ++ [row] }, row, true)

/-- The summary upsert nested inside `sync_workout_performance_data`. -/
def upsertSummaryStep (now : PDT) (st : Store) (workout_id : JVal)
    (cand : WorkoutPerformanceSummary) : Store :=
  match st.perf_summaries.find? (fun s => s.workout_id == workout_id) with
  | some ex =>
      { st with perf_summaries := (updateFirst (fun s => s.workout_id == workout_id)
          (fun _ => summaryUpdateFields ex cand now) st.perf_summaries) }
  | none =>
      { st with perf_summaries :=
          st.perf_summaries ++ [{ cand with created_at := some now, updated_at := some now }] }

/-- The metrics block of `sync_workout_performance_data`: when the fetched
`metrics` value is truthy, bulk-delete this workout's metric rows, then
transform and insert the new series.  A transform failure lands after the
delete, so the deletion survives in the session (the caller swallows the
exception without rolling back). -/
def metricsReplaceStep (now : PDT) (st1 : Store) (workout_id : JVal)
    (metrics_data : JVal) : Store :=
  if metrics_data.truthy then
    let st2 := { st1 with perf_metrics :=
      (st1.perf_metrics.filter (fun m => !(m.workout_id == workout_id))) }
    match transform_performance_metrics_data workout_id metrics_data with
    | .error _ => st2
    | .ok rows =>
      { st2 with perf_metrics :=
          (st2.perf_metrics ++ rows.map (fun r => { r with created_at := some now })) }
  else st1

/-- `DataLoader.sync_workout_performance_data`.  The whole body sits under
`try ... except: pass` (performance data is optional), so this always
returns a store.  An exception in the summary section reaches the handler
before the metrics section runs; an exception while transforming the
metrics happens after the bulk delete, so that deletion survives in the
session.  The metrics delete-and-insert runs only when the `metrics` value
is truthy. -/
def sync_workout_performance_data (ext : Externals)
    (perfGraph : JVal → Except PyErr JVal) (now : PDT)
    (st : Store) (workout_id : JVal) : Store :=
  match perfGraph workout_id with
  | .error _ => st
  | .ok perf_data =>
    match perf_data.getD "summaries" (.jarr []) with
    | .error _ => st
    | .ok summary_data =>
      let afterSummary : Except PyErr Store :=
        if summary_data.truthy then
          match pyLast summary_data with
          | .error e => .error e
          | .ok final_summary =>
            if final_summary.truthy then
              match transform_performance_summary_data ext workout_id final_summary with
              | .error e => .error e
              | .ok cand => .ok (upsertSummaryStep now st workout_id cand)
            else .ok st
        else .ok st
      match afterSummary with
      | .error _ => st
      | .ok st1 =>
        match perf_data.getD "metrics" (.jarr []) with
        | .error _ => st1
        | .ok metrics_data => metricsReplaceStep now st1 workout_id metrics_data

/-- `DataLoader.sync_workout_achievements`: early return when the payload's
`id` is falsy or its `achievement_templates` value is falsy; otherwise
`len` for the log line, bulk delete of this workout's achievement rows,
transform, insert.  Exceptions propagate to the caller. -/
def sync_workout_achievements (now : PDT) (st : Store) (workout_data : JVal) :
    Except PyErr Store := do
  let wid ← workout_data.get "id"
  if !wid.truthy then
    return st
  let ach ← workout_data.getD "achievement_templates" (.jarr [])
  if !ach.truthy then
    return st
  let _count ← pyLen ach
  let st1 := { st with achievements :=
    (st.achievements.filter (fun a => !(a.workout_id == wid))) }
  let rows ← transform_achievement_data wid ach
  return { st1 with achievements :=
      (st1.achievements ++ rows.map (fun r => { r with created_at := some now })) }

/-- The `stats` dictionary of `sync_workouts`. -/
structure Stats where
  processed : Nat := 0
  created : Nat := 0
  updated : Nat := 0
  errors : Nat := 0
deriving Repr, DecidableEq

/-- Outcome of the per-payload `try` body of `sync_workouts`:
`succeeded` carries the session state to commit, `is_new`, and the list of
workout ids passed to the Detail Fetcher (`sync_workout_performance_data`)
while processing the payload; `failed` records whether the
`created`/`updated` increment (which precedes the achievement sync in the
body) had already been applied, and for which branch, when the exception
was raised. -/
inductive OneOutcome where
  | succeeded (st : Store) (isNew : Bool) (detailCalls : List JVal)
  | failed (counted : Option Bool)

/-- Steps 3-5 of the per-payload body: workout upsert (capturing `is_new`,
whose counter increment precedes the achievement sync), achievement sync,
and the gated detail sync.  The gate reads the stored instance `w` returned
by the upsert. -/
def reconcileTail (ext : Externals) (perfGraph : JVal → Except PyErr JVal)
    (now : PDT) (include_performance : Bool) (st : Store)
    (workout_data : JVal) (cand : Workout) : OneOutcome :=
  match upsert_workout now st cand with
  | (st, w, isNew) =>
    match sync_workout_achievements now st workout_data with
    | .error _ => .failed (some isNew)
    | .ok st =>
      if include_performance && pyEqStr w.status "COMPLETE"
          && w.has_pedaling_metrics.truthy then
        .succeeded (sync_workout_performance_data ext perfGraph now st w.id)
          isNew [w.id]
      else
        .succeeded st isNew []

/-- The per-payload `try` body of `DataLoader.sync_workouts` (extraction,
ordered upserts, counter decision, achievement sync, gated detail sync).
`if instructor:`/`if ride:` on freshly built model objects is always true,
so they are the `Option` matches. -/
def syncOne (ext : Externals) (perfGraph : JVal → Except PyErr JVal)
    (now : PDT) (include_performance : Bool) (st : Store)
    (workout_data : JVal) : OneOutcome :=
  match extract_workout_components ext workout_data with
  | .error _ => .failed none
  | .ok (inst?, ride?, cand) =>
    let st := match inst? with
      | some i => upsert_instructor now st i
      | none => st
    let st := match ride? with
      | some r => upsert_ride now st r
      | none => st
    reconcileTail ext perfGraph now include_performance st workout_data cand

/-- The per-payload loop of `DataLoader.sync_workouts`.  A successful body
commits; a failed body runs the handler, whose log line evaluates
`workout_data.get("id")` — on a non-dict payload that itself raises, so the
inner `errors` increment and rollback are skipped and the exception
escapes to the function-level handler, which increments `errors` once,
rolls back, and abandons the rest of the batch. -/
def syncLoop (ext : Externals) (perfGraph : JVal → Except PyErr JVal)
    (now : PDT) (include_performance : Bool) :
    List JVal → Stats → PSession → Stats × PSession
  | [], stats, sess => (stats, sess)
  | wd :: rest, stats, sess =>
    match syncOne ext perfGraph now include_performance sess.current wd with
    | .succeeded st isNew _ =>
        let stats := if isNew then { stats with created := stats.created + 1 }
                     else { stats with updated := stats.updated + 1 }
        syncLoop ext perfGraph now include_performance rest stats
          (PSession.commit { sess with current := st })
    | .failed counted =>
        let stats := match counted with
          | some true => { stats with created := stats.created + 1 }
          | some false => { stats with updated := stats.updated + 1 }
          | none => stats
        match wd.get "id" with
        | .ok _ =>
            syncLoop ext perfGraph now include_performance rest
              { stats with errors := stats.errors + 1 } sess.rollback
        | .error _ =>
            ({ stats with errors := stats.errors + 1 }, sess.rollback)

/-- `DataLoader.sync_workouts`: fetch the listing, set `processed` to its
length, run the per-payload loop.  A failure before the loop (listing call,
`.get("data", [])` on a non-dict response, `len` on a non-iterable) is
caught by the function-level handler: one `errors` increment and a
rollback, with the stats returned as they stand. -/
def sync_workouts (ext : Externals) (perfGraph : JVal → Except PyErr JVal)
    (now : PDT) (sess : PSession) (api_workouts : Except PyErr JVal)
    (include_performance : Bool) : Stats × PSession :=
  let stats : Stats := {}
  let listing : Except PyErr (Nat × List JVal) := do
    let workouts_data ← api_workouts
    let dataV ← workouts_data.getD "data" (.jarr [])
    let n ← pyLen dataV
    let items ← pySeq dataV
    pure (n, items)
  match listing with
  | .error _ => ({ stats with errors := stats.errors + 1 }, sess.rollback)
  | .ok (n, items) =>
      syncLoop ext perfGraph now include_performance items
        { stats with processed := n } sess

/-- The status expression of `DataLoader.full_sync` (lines 380-382). -/
def deriveStatus (stats : Stats) : String :=
  if stats.errors > 0 then
    if stats.created + stats.updated > 0 then "partial" else "error"
  else "success"

/-- `DataLoader.create_sync_log`: builds the ledger row and adds it to the
session (the `created_at` column default applies at insert). -/
def create_sync_log (now : PDT) (st : Store) (user_id : JVal)
    (sync_type : String) (status : String) (stats : Stats)
    (error_message : Option String) : SyncLog × Store :=
  let log : SyncLog := {
    user_id := user_id, sync_type := sync_type, status := status,
    started_at := some now, completed_at := some now,
    workouts_processed := stats.processed,
    workouts_created := stats.created,
    workouts_updated := stats.updated,
    errors_count := stats.errors,
    error_message := error_message,
    created_at := some now }
  (log, { st with sync_logs := st.sync_logs ++ [log] })

/-- The return value of `DataLoader.full_sync` (the `sync_log_id` entry is
represented by the ledger row itself). -/
structure RunResult where
  status : String
  user_id : JVal
  stats : Stats
  sync_log : SyncLog
deriving Repr

/-- `DataLoader.full_sync`: one session for the whole run.  User sync, then
workout sync (which never raises: its body is fully guarded), status
derivation, ledger row, commit.  An exception — in this model only the user
sync can raise — is met by `session.rollback()` and re-raised; the
committed state is then the initial store. -/
def full_sync (ext : Externals) (perfGraph : JVal → Except PyErr JVal)
    (now : PDT) (api_user : Except PyErr JVal)
    (api_workouts : Except PyErr JVal) (store0 : Store)
    (user_id_arg : Option JVal) (include_performance : Bool) :
    Except PyErr (RunResult × Store) :=
  let sess0 : PSession := ⟨store0, store0⟩
  match sync_user_data ext now api_user sess0 with
  | .error e => .error e
  | .ok (user, sess1) =>
    let target := match user_id_arg with
      | some v => if v.truthy then v else user.id
      | none => user.id
    match sync_workouts ext perfGraph now sess1 api_workouts include_performance with
    | (stats, sess2) =>
      let status := deriveStatus stats
      match create_sync_log now sess2.current target "full" status stats none with
      | (log, st3) =>
        let sess3 := PSession.commit { sess2 with current := st3 }
        .ok ({ status := status, user_id := target, stats := stats,
               sync_log := log }, sess3.committed)

mutual

/-- `JVal.beq` is reflexive. -/
theorem JVal.beq_refl : (v : JVal) → JVal.beq v v = true
  | .jnull => rfl
  | .jbool b => by simp [JVal.beq]
  | .jnum n => by simp [JVal.beq]
  | .jstr s => by simp [JVal.beq]
  | .jarr xs => by simp [JVal.beq, JVal.beqList_refl xs]
  | .jobj xs => by simp [JVal.beq, JVal.beqPairs_refl xs]

/-- `JVal.beqList` is reflexive. -/
theorem JVal.beqList_refl : (xs : List JVal) → JVal.beqList xs xs = true
  | [] => rfl
  | x :: xs => by simp [JVal.beqList, JVal.beq_refl x, JVal.beqList_refl xs]

/-- `JVal.beqPairs` is reflexive. -/
theorem JVal.beqPairs_refl : (xs : List (String × JVal)) → JVal.beqPairs xs xs = true
  | [] => rfl
  | (k, v) :: xs => by simp [JVal.beqPairs, JVal.beq_refl v, JVal.beqPairs_refl xs]

end

/-- `==` on `JVal` is reflexive. -/
theorem JVal.beq_refl' (v : JVal) : (v == v) = true := JVal.beq_refl v

/-- Concrete externals for witnesses: a date parser that always raises
`ValueError`, an epoch converter that always succeeds, and a string-to-float
conversion that always raises. -/
def extW : Externals :=
  { parse_date := fun _ => .error .valueError,
    fromtimestamp_utc := fun n => .ok n,
    str_to_float := fun _ => none }

/-- Concrete performance-graph collaborator for witnesses: always returns an
empty response object. -/
def pgW : JVal → Except PyErr JVal := fun _ => .ok (.jobj [])

/-- Concrete run timestamp for witnesses. -/
def nowW : PDT := ⟨100, true⟩

/-- Concrete user payload for witnesses. -/
def userPayloadW : JVal := .jobj [("id", .jstr "u1"), ("username", .jstr "me")]

/-- A successful `sync_user_data` only rewrites the `users` table of the
current state and leaves the committed state alone. -/
theorem sync_user_data_ok_shape (ext : Externals) (now : PDT)
    (api_user : Except PyErr JVal) (sess : PSession) (user : User)
    (sess' : PSession)
    (h : sync_user_data ext now api_user sess = .ok (user, sess')) :
    sess'.committed = sess.committed ∧
    ∃ users, sess'.current = { sess.current with users := users } := by
  unfold sync_user_data at h
  cases hau : api_user with
  | error e => rw [hau] at h; simp [Bind.bind, Except.bind] at h
  | ok ud =>
      rw [hau] at h
      simp only [Bind.bind, Except.bind] at h
      cases htr : transform_user_data ext ud with
      | error e => rw [htr] at h; simp [Bind.bind, Except.bind] at h
      | ok cand =>
          rw [htr] at h
          simp only at h
          cases hf : sess.current.users.find? (fun u => u.id == cand.id) with
          | some ex =>
              rw [hf] at h
              simp only [Pure.pure, Except.pure, Except.ok.injEq, Prod.mk.injEq] at h
              obtain ⟨-, h2⟩ := h
              subst h2
              exact ⟨rfl, _, rfl⟩
          | none =>
              rw [hf] at h
              simp only [Pure.pure, Except.pure, Except.ok.injEq, Prod.mk.injEq] at h
              obtain ⟨-, h2⟩ := h
              subst h2
              exact ⟨rfl, _, rfl⟩

/-- C2 — Final status derivation: a completed run's status is `success` iff
`errored == 0`, `partial` iff `errored > 0` and `created + updated > 0`,
and `error` iff `errored > 0` and `created + updated == 0`; and a run over
an empty workout list (`data=[]`) yields all-zero counters, status
`success`, and exactly one appended ledger row carrying those zero
counters. -/
theorem full_sync_status_derivation :
    (∀ stats : Stats,
      (deriveStatus stats = "success" ↔ stats.errors = 0) ∧
      (deriveStatus stats = "partial" ↔
        stats.errors > 0 ∧ stats.created + stats.updated > 0) ∧
      (deriveStatus stats = "error" ↔
        stats.errors > 0 ∧ stats.created + stats.updated = 0)) ∧
    (∀ (ext : Externals) (pg : JVal → Except PyErr JVal) (now : PDT)
       (api_user : Except PyErr JVal) (store0 : Store) (uarg : Option JVal)
       (incl : Bool) (user : User) (sess1 : PSession),
      sync_user_data ext now api_user ⟨store0, store0⟩ = .ok (user, sess1) →
      ∃ res st,
        full_sync ext pg now api_user (.ok (.jobj [("data", .jarr [])]))
            store0 uarg incl = .ok (res, st) ∧
        res.status = "success" ∧
        res.stats = { processed := 0, created := 0, updated := 0, errors := 0 } ∧
        st.sync_logs = store0.sync_logs ++ [res.sync_log] ∧
        res.sync_log.workouts_processed = 0 ∧
        res.sync_log.workouts_created = 0 ∧
        res.sync_log.workouts_updated = 0 ∧
        res.sync_log.errors_count = 0 ∧
        res.sync_log.status = "success") := by
  constructor
  · intro stats
    rcases Nat.eq_zero_or_pos stats.errors with he | he
    · rw [deriveStatus, if_neg (by omega)]
      exact ⟨⟨fun _ => he, fun _ => rfl⟩,
        ⟨fun h => absurd h (by decide), fun h => absurd h.1 (by omega)⟩,
        ⟨fun h => absurd h (by decide), fun h => absurd h.1 (by omega)⟩⟩
    · rcases Nat.eq_zero_or_pos (stats.created + stats.updated) with hc | hc
      · rw [deriveStatus, if_pos (by omega), if_neg (by omega)]
        exact ⟨⟨fun h => absurd h (by decide), fun h => absurd h (by omega)⟩,
          ⟨fun h => absurd h (by decide), fun h => absurd h.2 (by omega)⟩,
          ⟨fun _ => ⟨he, hc⟩, fun _ => rfl⟩⟩
      · rw [deriveStatus, if_pos (by omega), if_pos (by omega)]
        exact ⟨⟨fun h => absurd h (by decide), fun h => absurd h (by omega)⟩,
          ⟨fun _ => ⟨he, hc⟩, fun _ => rfl⟩,
          ⟨fun h => absurd h (by decide), fun h => absurd h.2 (by omega)⟩⟩
  · intro ext pg now api_user store0 uarg incl user sess1 hus
    obtain ⟨hcomm, us, hcur⟩ :=
      sync_user_data_ok_shape ext now api_user ⟨store0, store0⟩ user sess1 hus
    have hw : sync_workouts ext pg now sess1 (.ok (.jobj [("data", .jarr [])]))
        incl = ({ processed := 0, created := 0, updated := 0, errors := 0 }, sess1) := rfl
    simp only [full_sync, hus, hw, create_sync_log, PSession.commit, deriveStatus]
    refine ⟨_, _, rfl, rfl, rfl, ?_, rfl, rfl, rfl, rfl, rfl⟩
    rw [hcur]

/-- Witness for the status-derivation claim: a concrete empty-list run. -/
theorem full_sync_status_derivation_witness :
    ∃ res st,
      full_sync extW pgW nowW (.ok userPayloadW) (.ok (.jobj [("data", .jarr [])]))
          {} none true = .ok (res, st) ∧
      res.status = "success" ∧
      res.stats = { processed := 0, created := 0, updated := 0, errors := 0 } ∧
      st.sync_logs = ({} : Store).sync_logs ++ [res.sync_log] ∧
      res.sync_log.workouts_processed = 0 ∧
      res.sync_log.workouts_created = 0 ∧
      res.sync_log.workouts_updated = 0 ∧
      res.sync_log.errors_count = 0 ∧
      res.sync_log.status = "success" :=
  full_sync_status_derivation.2 extW pgW nowW (.ok userPayloadW) {} none true _ _ rfl

/-- C9 — Timestamp parsing is total: for every input value and every
behaviour of the external date libraries, `_parse_timestamp` returns `none`
or a timezone-aware datetime; it has no error channel, so it never raises. -/
theorem parse_timestamp_total_aware (ext : Externals) (v : JVal) :
    _parse_timestamp ext v = none ∨
    ∃ dt, _parse_timestamp ext v = some dt ∧ dt.aware = true := by
  cases v with
  | jnull => exact .inl rfl
  | jnum n =>
      cases h : ext.fromtimestamp_utc n with
      | error e => exact .inl (by simp [_parse_timestamp, h])
      | ok e => exact .inr ⟨⟨e, true⟩, by simp [_parse_timestamp, h], rfl⟩
  | jbool b =>
      cases h : ext.fromtimestamp_utc (if b then 1 else 0) with
      | error e => exact .inl (by simp [_parse_timestamp, h])
      | ok e => exact .inr ⟨⟨e, true⟩, by simp [_parse_timestamp, h], rfl⟩
  | jstr s =>
      cases hp : ext.parse_date s with
      | ok dt =>
          refine .inr ⟨if dt.aware then dt else { dt with aware := true },
            by simp [_parse_timestamp, hp], ?_⟩
          by_cases hA : dt.aware = true
          · simp [hA]
          · simp [hA]
      | error e =>
          cases hf : ext.str_to_float s with
          | none => exact .inl (by simp [_parse_timestamp, hp, hf])
          | some f =>
              cases hft : ext.fromtimestamp_utc f with
              | error e2 => exact .inl (by simp [_parse_timestamp, hp, hf, hft])
              | ok ep =>
                  exact .inr ⟨⟨ep, true⟩, by simp [_parse_timestamp, hp, hf, hft], rfl⟩
  | jarr xs => exact .inl rfl
  | jobj fs => exact .inl rfl

/-- Witness for timestamp totality at concrete inputs. -/
theorem parse_timestamp_total_aware_witness :
    _parse_timestamp extW (.jstr "not a date") = none ∨
    ∃ dt, _parse_timestamp extW (.jstr "not a date") = some dt ∧ dt.aware = true :=
  parse_timestamp_total_aware extW (.jstr "not a date")

/-- C10 — Achievement sync no-op guard: on a payload whose `id` is absent
or falsy, or whose `achievement_templates` value is absent or empty,
`sync_workout_achievements` returns the store untouched — no delete and no
insert. -/
theorem achievements_noop_guard (now : PDT) (st : Store)
    (fs : List (String × JVal))
    (h : JVal.truthy ((jlookup fs "id").getD .jnull) = false ∨
         JVal.truthy ((jlookup fs "achievement_templates").getD (.jarr [])) = false) :
    sync_workout_achievements now st (.jobj fs) = .ok st := by
  unfold sync_workout_achievements
  rcases h with h | h
  · simp [JVal.get, Bind.bind, Except.bind, h, Pure.pure, Except.pure]
  · by_cases hw : JVal.truthy ((jlookup fs "id").getD .jnull)
    · simp [JVal.get, JVal.getD, Bind.bind, Except.bind, hw, h, Pure.pure, Except.pure]
    · simp [JVal.get, JVal.getD, Bind.bind, Except.bind, hw, Pure.pure, Except.pure]

/-- Concrete store holding one achievement row, for the no-op witness. -/
def achRowW : WorkoutAchievement :=
  { workout_id := .jstr "w", achievement_id := .jstr "a", name := .jstr "n",
    description := .jnull, slug := .jnull, image_url := .jnull }

def achStoreW : Store := { achievements := [achRowW] }

/-- Witness: an empty embedded achievement list leaves the existing rows
alone (no delete-all). -/
theorem achievements_noop_guard_witness :
    sync_workout_achievements nowW achStoreW
      (.jobj [("id", .jstr "w"), ("achievement_templates", .jarr [])]) =
    .ok achStoreW :=
  achievements_noop_guard nowW achStoreW
    [("id", .jstr "w"), ("achievement_templates", .jarr [])]
    (Or.inr (by decide))

/-- A workout payload without an `id` key fails its transformation at the
very first field access. -/
theorem transform_workout_data_no_id (ext : Externals)
    (fs : List (String × JVal)) (h : jlookup fs "id" = none) :
    transform_workout_data ext (.jobj fs) = .error (.keyError "id") := by
  unfold transform_workout_data
  simp [JVal.item, h, Bind.bind, Except.bind]

/-- C8 — Component-extraction nesting invariant: a successful extraction
returns a non-`none` instructor only when it also returns a non-`none`
ride (the instructor is only built from the object nested inside the
payload's ride object); the workout component is always present in a
successful result by construction, and a payload missing its workout
`id` makes the extraction raise. -/
theorem extract_components_nesting (ext : Externals) (wd : JVal) :
    (∀ inst ride w, extract_workout_components ext wd = .ok (inst, ride, w) →
       inst.isSome → ride.isSome) ∧
    (∀ fs, wd = .jobj fs → jlookup fs "id" = none →
       ∃ e, extract_workout_components ext wd = .error e) := by
  constructor
  · intro inst ride w h hin
    unfold extract_workout_components at h
    simp only [Bind.bind, Except.bind] at h
    cases hr : wd.get "ride" with
    | error e => simp only [hr] at h; exact absurd h (by simp)
    | ok ride_data =>
      simp only [hr] at h
      by_cases ht : ride_data.truthy = true
      · rw [if_pos ht] at h
        cases htr : transform_ride_data ext ride_data with
        | error e => simp only [htr] at h; exact absurd h (by simp)
        | ok ride0 =>
          simp only [htr] at h
          cases hi : ride_data.get "instructor" with
          | error e => simp only [hi] at h; exact absurd h (by simp)
          | ok idata =>
            simp only [hi] at h
            by_cases hit : idata.truthy = true
            · rw [if_pos hit] at h
              cases hti : transform_instructor_data idata with
              | error e => simp only [hti] at h; exact absurd h (by simp)
              | ok i0 =>
                simp only [hti] at h
                simp only [Pure.pure, Except.pure] at h
                cases htw : transform_workout_data ext wd with
                | error e => simp only [htw] at h; exact absurd h (by simp)
                | ok w0 =>
                  simp only [htw] at h
                  simp only [Except.ok.injEq, Prod.mk.injEq] at h
                  rw [← h.2.1]
                  exact rfl
            · rw [if_neg hit] at h
              simp only [Pure.pure, Except.pure] at h
              cases htw : transform_workout_data ext wd with
              | error e => simp only [htw] at h; exact absurd h (by simp)
              | ok w0 =>
                simp only [htw] at h
                simp only [Except.ok.injEq, Prod.mk.injEq] at h
                rw [← h.2.1]
                exact rfl
      · rw [if_neg ht] at h
        simp only [Pure.pure, Except.pure] at h
        cases htw : transform_workout_data ext wd with
        | error e => simp only [htw] at h; exact absurd h (by simp)
        | ok w0 =>
          simp only [htw] at h
          simp only [Except.ok.injEq, Prod.mk.injEq] at h
          rw [← h.1] at hin
          exact absurd hin (by simp)
  · rintro fs rfl hid
    unfold extract_workout_components
    simp only [Bind.bind, Except.bind]
    have hget : (JVal.jobj fs).get "ride" = .ok ((jlookup fs "ride").getD .jnull) := rfl
    simp only [hget]
    by_cases ht : JVal.truthy ((jlookup fs "ride").getD .jnull) = true
    · rw [if_pos ht]
      cases htr : transform_ride_data ext ((jlookup fs "ride").getD .jnull) with
      | error e => exact ⟨e, rfl⟩
      | ok ride0 =>
        cases hi : ((jlookup fs "ride").getD .jnull).get "instructor" with
        | error e => exact ⟨e, by simp [htr, hi, Bind.bind, Except.bind]⟩
        | ok idata =>
          by_cases hit : idata.truthy = true
          · cases hti : transform_instructor_data idata with
            | error e =>
                exact ⟨e, by simp [htr, hi, hit, hti, Bind.bind, Except.bind]⟩
            | ok i0 =>
                exact ⟨.keyError "id", by
                  simp [htr, hi, hit, hti, Bind.bind, Except.bind, Pure.pure,
                    Except.pure, transform_workout_data_no_id ext fs hid]⟩
          · exact ⟨.keyError "id", by
              simp [htr, hi, hit, Bind.bind, Except.bind, Pure.pure,
                Except.pure, transform_workout_data_no_id ext fs hid]⟩
    · rw [if_neg ht]
      exact ⟨.keyError "id", by
        simp [Bind.bind, Except.bind, Pure.pure, Except.pure,
          transform_workout_data_no_id ext fs hid]⟩

/-- Witness for the extraction nesting invariant: a payload with a ride but
no embedded instructor, and the raising case for a payload without `id`. -/
theorem extract_components_nesting_witness :
    (∀ inst ride w,
      extract_workout_components extW
          (.jobj [("id", .jstr "w1"), ("ride", .jobj [("id", .jstr "r1")])]) =
        .ok (inst, ride, w) →
      inst.isSome → ride.isSome) ∧
    (∃ e, extract_workout_components extW (.jobj [("ride", .jobj [("id", .jstr "r1")])]) =
      .error e) :=
  ⟨(extract_components_nesting extW
      (.jobj [("id", .jstr "w1"), ("ride", .jobj [("id", .jstr "r1")])])).1,
   (extract_components_nesting extW (.jobj [("ride", .jobj [("id", .jstr "r1")])])).2
      [("ride", .jobj [("id", .jstr "r1")])] rfl rfl⟩

/-- If every element maps to an `ok` result satisfying `P`, then `mapM`
succeeds with a list of the same length, all of whose members satisfy `P`. -/
theorem mapM_ok_of_all {α β : Type} (f : α → Except PyErr β) (P : β → Prop) :
    ∀ l : List α, (∀ a ∈ l, ∃ b, f a = .ok b ∧ P b) →
    ∃ bs, l.mapM f = .ok bs ∧ bs.length = l.length ∧ ∀ b ∈ bs, P b := by
  intro l
  induction l with
  | nil => intro _; exact ⟨[], rfl, rfl, by simp⟩
  | cons a l ih =>
      intro h
      obtain ⟨b, hb, hPb⟩ := h a (by simp)
      obtain ⟨bs, hbs, hlen, hall⟩ := ih (fun x hx => h x (by simp [hx]))
      refine ⟨b :: bs, ?_, by simp [hlen], ?_⟩
      · rw [List.mapM_cons, hb, hbs]; rfl
      · intro x hx
        rcases List.mem_cons.mp hx with rfl | hx
        · exact hPb
        · exact hall x hx

/-- A metric sample that is a dict always transforms, into a row tagged
with the requested workout id. -/
theorem transform_one_metric_obj (wid : JVal) (fs : List (String × JVal)) :
    ∃ row, transform_one_metric wid (.jobj fs) = .ok row ∧ row.workout_id = wid :=
  ⟨_, rfl, rfl⟩

/-- Concrete two-row metric store for the full-replace counterexample. -/
def metRowW (k : Int) : WorkoutPerformanceMetric :=
  { workout_id := .jstr "w", seconds_since_pedaling_start := .jnum k,
    cadence := .jnull, heart_rate := .jnull, power := .jnull,
    resistance := .jnull, speed := .jnull }

def metStoreW : Store := { perf_metrics := [metRowW 0, metRowW 1] }

/-- C4 counterexample — re-syncing a workout that has 2 stored metric rows
with a fresh series of length M = 0 leaves the store untouched: 2 rows
survive where the claim demands exactly 0.  The `if metrics_data:` guard
skips the delete when the new series is empty. -/
theorem metrics_resync_empty_series_cex :
    sync_workout_performance_data extW (fun _ => .ok (.jobj [("metrics", .jarr [])]))
      nowW metStoreW (.jstr "w") = metStoreW ∧
    metStoreW.perf_metrics.length = 2 :=
  ⟨rfl, rfl⟩

/-- C4 amended — Full-replace invariant for a NON-EMPTY metrics series:
when the fetched series has length M ≥ 1 and its samples are dicts,
exactly M metric rows for that workout exist afterward — all prior rows
for the workout are deleted before the new series is inserted.  (For
M = 0 the delete-and-insert is skipped entirely and prior rows survive,
as the counterexample shows.) -/
theorem metrics_full_replace (ext : Externals) (pg : JVal → Except PyErr JVal)
    (now : PDT) (st : Store) (wid : JVal) (ms : List JVal)
    (hpg : pg wid = .ok (.jobj [("metrics", .jarr ms)]))
    (hne : ms ≠ [])
    (hobj : ∀ m ∈ ms, ∃ fs, m = .jobj fs) :
    ((sync_workout_performance_data ext pg now st wid).perf_metrics.countP
      (fun r => r.workout_id == wid)) = ms.length := by
  obtain ⟨rows, hrows, hlen, hall⟩ :=
    mapM_ok_of_all (transform_one_metric wid) (fun r => r.workout_id = wid) ms
      (fun m hm => by
        obtain ⟨fs, rfl⟩ := hobj m hm
        exact transform_one_metric_obj wid fs)
  have htr : transform_performance_metrics_data wid (.jarr ms) = .ok rows := by
    unfold transform_performance_metrics_data
    simp only [pySeq, Bind.bind, Except.bind]
    exact hrows
  have h4 : (JVal.jarr ms).truthy = true := by
    cases ms with
    | nil => exact absurd rfl hne
    | cons a l => rfl
  unfold sync_workout_performance_data
  simp only [hpg]
  have h1 : (JVal.jobj [("metrics", .jarr ms)]).getD "summaries" (.jarr []) =
      .ok (.jarr []) := rfl
  have h2 : (JVal.jobj [("metrics", .jarr ms)]).getD "metrics" (.jarr []) =
      .ok (.jarr ms) := rfl
  have h3 : (JVal.jarr []).truthy = false := rfl
  simp only [h1, h2, h3, h4, htr, if_true, Bool.false_eq_true, if_false]
  simp only [metricsReplaceStep, h4, if_true, htr]
  rw [List.countP_append]
  have hz : (st.perf_metrics.filter (fun m => !(m.workout_id == wid))).countP
      (fun r => r.workout_id == wid) = 0 := by
    rw [List.countP_eq_zero]
    intro a ha
    have h5 := (List.mem_filter.mp ha).2
    simp only [Bool.not_eq_eq_eq_not, Bool.not_true] at h5
    simp [h5]
  have hfull : ∀ r ∈ rows.map (fun r => { r with created_at := some now }),
      (fun r : WorkoutPerformanceMetric => r.workout_id == wid) r = true := by
    intro r hr
    obtain ⟨r0, hr0, rfl⟩ := List.mem_map.mp hr
    show (r0.workout_id == wid) = true
    rw [hall r0 hr0]
    exact JVal.beq_refl wid
  rw [hz, List.countP_eq_length.mpr hfull, List.length_map, hlen]
  omega

/-- Witness for the amended full-replace property: the two stale rows are
replaced by exactly one row for a length-1 series. -/
theorem metrics_full_replace_witness :
    ((sync_workout_performance_data extW
        (fun _ => .ok (.jobj [("metrics", .jarr [.jobj [("cadence", .jnum 5)]])]))
        nowW metStoreW (.jstr "w")).perf_metrics.countP
      (fun r => r.workout_id == JVal.jstr "w")) = 1 :=
  metrics_full_replace extW
    (fun _ => .ok (.jobj [("metrics", .jarr [.jobj [("cadence", .jnum 5)]])]))
    nowW metStoreW (.jstr "w") [.jobj [("cadence", .jnum 5)]] rfl (by simp)
    (fun m hm => ⟨_, List.mem_singleton.mp hm⟩)

/-- If `find?` locates a row, the list splits around that row (first match)
and `updateFirst` rewrites exactly it. -/
theorem find?_updateFirst_split {α : Type} (p : α → Bool) (f : α → α) :
    ∀ (l : List α) (ex : α), l.find? p = some ex →
    ∃ pre post, l = pre ++ ex :: post ∧ (∀ x ∈ pre, p x = false) ∧
      updateFirst p f l = pre ++ f ex :: post := by
  intro l
  induction l with
  | nil => intro ex h; simp at h
  | cons a l ih =>
      intro ex h
      by_cases hp : p a = true
      · rw [List.find?_cons_of_pos _ hp] at h
        obtain rfl : a = ex := by injection h
        exact ⟨[], l, rfl, by simp, by simp [updateFirst, hp]⟩
      · rw [List.find?_cons_of_neg _ (by simp [hp])] at h
        obtain ⟨pre, post, hl, hpre, hupd⟩ := ih ex h
        refine ⟨a :: pre, post, by simp [hl], ?_, by simp [updateFirst, hp, hupd]⟩
        intro x hx
        rcases List.mem_cons.mp hx with rfl | hx
        · exact eq_false_of_ne_true hp
        · exact hpre x hx

/-- C5 amended — Immutable-field preservation on update: for Instructor,
Ride, Workout and PerformanceSummary upserts that find an existing row,
every candidate field is copied onto that row except the primary key and
`created_at`, and `updated_at` is refreshed to the current time.  For the
USER upsert, however, only the primary key is excluded from the copy:
`created_at` is overwritten with the candidate's value on every update
(the counterexample shows a stored creation time being replaced). -/
theorem upsert_field_copy_discipline (now : PDT) :
    (∀ (st : Store) (cand ex : Instructor),
       st.instructors.find? (fun i => i.id == cand.id) = some ex →
       ∃ pre post, st.instructors = pre ++ ex :: post ∧
         (upsert_instructor now st cand).instructors =
           pre ++ ({ cand with
                     id := ex.id
                     created_at := ex.created_at
                     updated_at := some now } : Instructor) :: post) ∧
    (∀ (st : Store) (cand ex : Ride),
       st.rides.find? (fun r => r.id == cand.id) = some ex →
       ∃ pre post, st.rides = pre ++ ex :: post ∧
         (upsert_ride now st cand).rides =
           pre ++ ({ cand with
                     id := ex.id
                     created_at := ex.created_at
                     updated_at := some now } : Ride) :: post) ∧
    (∀ (st : Store) (cand ex : Workout),
       st.workouts.find? (fun w => w.id == cand.id) = some ex →
       ∃ pre post, st.workouts = pre ++ ex :: post ∧
         (upsert_workout now st cand).1.workouts =
           pre ++ ({ cand with
                     id := ex.id
                     created_at := ex.created_at
                     updated_at := some now } : Workout) :: post ∧
         (upsert_workout now st cand).2.2 = false) ∧
    (∀ (st : Store) (wid : JVal) (cand ex : WorkoutPerformanceSummary),
       st.perf_summaries.find? (fun s => s.workout_id == wid) = some ex →
       ∃ pre post, st.perf_summaries = pre ++ ex :: post ∧
         (upsertSummaryStep now st wid cand).perf_summaries =
           pre ++ ({ cand with
                     created_at := ex.created_at
                     updated_at := some now } : WorkoutPerformanceSummary) :: post) ∧
    (∀ (ext : Externals) (ud : JVal) (cand : User) (sess : PSession)
       (ex user : User) (sess' : PSession),
       transform_user_data ext ud = .ok cand →
       sess.current.users.find? (fun u => u.id == cand.id) = some ex →
       sync_user_data ext now (.ok ud) sess = .ok (user, sess') →
       ∃ pre post, sess.current.users = pre ++ ex :: post ∧
         sess'.current.users =
           pre ++ ({ cand with id := ex.id, updated_at := some now } : User) :: post) := by
  refine ⟨?_, ?_, ?_, ?_, ?_⟩
  · intro st cand ex h
    obtain ⟨pre, post, hl, -, hupd⟩ := find?_updateFirst_split
      (fun i => i.id == cand.id) (fun _ => instructorUpdateFields ex cand now)
      st.instructors ex h
    refine ⟨pre, post, hl, ?_⟩
    unfold upsert_instructor
    simp only [h]
    exact hupd
  · intro st cand ex h
    obtain ⟨pre, post, hl, -, hupd⟩ := find?_updateFirst_split
      (fun r => r.id == cand.id) (fun _ => rideUpdateFields ex cand now)
      st.rides ex h
    refine ⟨pre, post, hl, ?_⟩
    unfold upsert_ride
    simp only [h]
    exact hupd
  · intro st cand ex h
    obtain ⟨pre, post, hl, -, hupd⟩ := find?_updateFirst_split
      (fun w => w.id == cand.id) (fun _ => workoutUpdateFields ex cand now)
      st.workouts ex h
    refine ⟨pre, post, hl, ?_, ?_⟩ <;> unfold upsert_workout <;> simp only [h]
    exact hupd
  · intro st wid cand ex h
    obtain ⟨pre, post, hl, -, hupd⟩ := find?_updateFirst_split
      (fun s => s.workout_id == wid) (fun _ => summaryUpdateFields ex cand now)
      st.perf_summaries ex h
    refine ⟨pre, post, hl, ?_⟩
    unfold upsertSummaryStep
    simp only [h]
    exact hupd
  · intro ext ud cand sess ex user sess' htr hf hrun
    obtain ⟨pre, post, hl, -, hupd⟩ := find?_updateFirst_split
      (fun u => u.id == cand.id) (fun _ => userUpdateFields ex cand now)
      sess.current.users ex hf
    refine ⟨pre, post, hl, ?_⟩
    unfold sync_user_data at hrun
    simp only [Bind.bind, Except.bind, htr] at hrun
    rw [hf] at hrun
    simp only [Pure.pure, Except.pure, Except.ok.injEq, Prod.mk.injEq] at hrun
    rw [← hrun.2]
    exact hupd

/-- Stored user row whose creation timestamp predates the candidate's. -/
def oldUserW : User :=
  { id := .jstr "u1", username := .jstr "old", email := .jnull,
    first_name := .jnull, last_name := .jnull, location := .jnull,
    timezone := .jnull, created_at := some ⟨3, true⟩,
    updated_at := some ⟨3, true⟩ }

def userStoreW : Store := { users := [oldUserW] }

/-- C5 counterexample — the User upsert copies `created_at` from the
candidate: re-syncing user `u1` (stored creation instant 3) with a payload
whose `created_at` parses to instant 7 leaves the stored row with creation
instant 7, so the creation timestamp was overwritten on update. -/
theorem user_created_at_overwritten_cex :
    ((sync_user_data extW nowW
        (.ok (.jobj [("id", .jstr "u1"), ("created_at", .jnum 7)]))
        ⟨{}, userStoreW⟩).map
      (fun r => r.2.current.users.map (fun u => u.created_at))) =
      .ok [some ⟨7, true⟩] ∧
    oldUserW.created_at = some ⟨3, true⟩ :=
  ⟨rfl, rfl⟩

/-- Stored and candidate instructor rows for the field-copy witness. -/
def oldInstW : Instructor :=
  { id := .jstr "i1", name := .jstr "old", first_name := .jnull,
    last_name := .jnull, bio := .jnull, image_url := .jnull,
    created_at := some ⟨1, true⟩, updated_at := some ⟨1, true⟩ }

def candInstW : Instructor :=
  { id := .jstr "i1", name := .jstr "new", first_name := .jnull,
    last_name := .jnull, bio := .jnull, image_url := .jnull }

def instStoreW : Store := { instructors := [oldInstW] }

/-- Witness for the field-copy discipline: a concrete instructor update
(created_at kept, name copied, updated_at refreshed). -/
theorem upsert_field_copy_discipline_witness :
    ∃ pre post, instStoreW.instructors = pre ++ oldInstW :: post ∧
      (upsert_instructor nowW instStoreW candInstW).instructors =
        pre ++ ({ candInstW with
                  id := oldInstW.id
                  created_at := oldInstW.created_at
                  updated_at := some nowW } : Instructor) :: post :=
  (upsert_field_copy_discipline nowW).1 instStoreW candInstW oldInstW rfl

/-- C3 counterexample — a failure of the initial workout listing (remote
source unreachable before any payload is processed) does NOT abort the run:
`full_sync` returns normally with `errors = 1`, status `"error"`, and a
ledger row written, instead of re-raising the exception.  The listing call
sits inside `sync_workouts`'s own `try/except`, which converts the failure
into a counter increment. -/
theorem listing_failure_not_reraised_cex :
    ((full_sync extW pgW nowW (.ok userPayloadW) (.error .otherError)
        {} none true).map
      (fun r => (r.1.status, r.1.stats, r.2.sync_logs.length))) =
    .ok ("error", ⟨0, 0, 0, 1⟩, 1) :=
  rfl

/-- C3 amended — Run-level abort policy: an exception raised during the
user-sync step (outside `sync_workouts`) aborts the run, rolls back, and is
re-raised to the caller unchanged; but an exception raised during the
initial workout listing is caught inside `sync_workouts`, increments the
errored counter once, rolls back, and the run completes normally with
status derived from the counters (`"error"` when nothing succeeded). -/
theorem run_abort_policy (ext : Externals) (pg : JVal → Except PyErr JVal)
    (now : PDT) (api_user api_workouts : Except PyErr JVal) (store0 : Store)
    (uarg : Option JVal) (incl : Bool) :
    (∀ e, sync_user_data ext now api_user ⟨store0, store0⟩ = .error e →
      full_sync ext pg now api_user api_workouts store0 uarg incl = .error e) ∧
    (∀ e user sess1,
      sync_user_data ext now api_user ⟨store0, store0⟩ = .ok (user, sess1) →
      api_workouts = .error e →
      ∃ res st,
        full_sync ext pg now api_user api_workouts store0 uarg incl =
          .ok (res, st) ∧
        res.stats = { processed := 0, created := 0, updated := 0, errors := 1 } ∧
        res.status = "error") := by
  constructor
  · intro e h
    simp only [full_sync, h]
  · intro e user sess1 h1 ha
    subst ha
    have hw : sync_workouts ext pg now sess1 (.error e) incl =
        ({ processed := 0, created := 0, updated := 0, errors := 1 },
         sess1.rollback) := rfl
    simp only [full_sync, h1, hw, create_sync_log, PSession.commit]
    exact ⟨_, _, rfl, rfl, rfl⟩

/-- Witness for the abort policy: a failing user fetch re-raises; a failing
listing with a good user completes with status `"error"`. -/
theorem run_abort_policy_witness :
    full_sync extW pgW nowW (.error .otherError) (.error .typeError)
        {} none true = .error .otherError ∧
    ∃ res st,
      full_sync extW pgW nowW (.ok userPayloadW) (.error .typeError)
          {} none true = .ok (res, st) ∧
      res.stats = { processed := 0, created := 0, updated := 0, errors := 1 } ∧
      res.status = "error" :=
  ⟨(run_abort_policy extW pgW nowW (.error .otherError) (.error .typeError)
      {} none true).1 .otherError rfl,
   (run_abort_policy extW pgW nowW (.ok userPayloadW) (.error .typeError)
      {} none true).2 .typeError _ _ rfl rfl⟩

/-- The instance `upsert_workout` returns carries the candidate's `status`
and `has_pedaling_metrics` in both branches (the update copy keeps them,
the insert is the candidate itself). -/
theorem upsert_workout_keeps_gating (now : PDT) (st : Store) (cand : Workout) :
    ((upsert_workout now st cand).2.1).status = cand.status ∧
    ((upsert_workout now st cand).2.1).has_pedaling_metrics =
      cand.has_pedaling_metrics := by
  unfold upsert_workout
  cases h : st.workouts.find? (fun w => w.id == cand.id) <;> exact ⟨rfl, rfl⟩

/-- A successful `reconcileTail` performed exactly one Detail Fetcher call
when the gate (`include_performance` and status `"COMPLETE"` and
`has_pedaling_metrics` truthy) holds, and none otherwise. -/
theorem reconcileTail_calls (ext : Externals) (pg : JVal → Except PyErr JVal)
    (now : PDT) (incl : Bool) (st : Store) (wd : JVal) (cand : Workout) :
    ∀ st2 isNew calls,
      reconcileTail ext pg now incl st wd cand = .succeeded st2 isNew calls →
      (if incl && pyEqStr cand.status "COMPLETE"
          && cand.has_pedaling_metrics.truthy
       then calls.length = 1 else calls = []) := by
  intro st2 isNew calls h
  unfold reconcileTail at h
  rcases hup : upsert_workout now st cand with ⟨stC, w, isNew2⟩
  obtain ⟨hs, hm⟩ := upsert_workout_keeps_gating now st cand
  rw [hup] at hs hm
  simp only [hup] at h
  cases hach : sync_workout_achievements now stC wd with
  | error e => simp only [hach] at h; exact absurd h (by simp)
  | ok stD =>
      simp only [hach] at h
      by_cases hg : (incl && pyEqStr w.status "COMPLETE"
          && w.has_pedaling_metrics.truthy) = true
      · rw [if_pos hg] at h
        rw [hs, hm] at hg
        rw [if_pos hg]
        cases h
        rfl
      · rw [if_neg hg] at h
        rw [hs, hm] at hg
        rw [if_neg hg]
        cases h
        rfl

/-- C7 — Detail-sync gating: for every payload whose reconciliation reaches
step 5 (extraction and achievement sync succeed), the Detail Fetcher is
invoked exactly once iff `include_performance` is enabled AND the workout's
status equals `"COMPLETE"` AND `has_pedaling_metrics` is truthy, and is not
invoked otherwise; in particular a workout with falsy
`has_pedaling_metrics` never triggers a call.  Payloads that fail before
step 5 yield `OneOutcome.failed`, which by construction records no Detail
Fetcher call. -/
theorem detail_sync_gating (ext : Externals) (pg : JVal → Except PyErr JVal)
    (now : PDT) (incl : Bool) (st : Store) (wd : JVal) :
    ∀ st2 isNew calls,
      syncOne ext pg now incl st wd = .succeeded st2 isNew calls →
      ∃ i r cand, extract_workout_components ext wd = .ok (i, r, cand) ∧
        (if incl && pyEqStr cand.status "COMPLETE"
            && cand.has_pedaling_metrics.truthy
         then calls.length = 1 else calls = []) := by
  intro st2 isNew calls h
  unfold syncOne at h
  cases hx : extract_workout_components ext wd with
  | error e => simp only [hx] at h; exact absurd h (by simp)
  | ok trip =>
      obtain ⟨iO, rO, cand⟩ := trip
      simp only [hx] at h
      exact ⟨iO, rO, cand, rfl,
        reconcileTail_calls ext pg now incl _ wd cand st2 isNew calls h⟩

/-- Concrete complete workout payload whose `has_pedaling_metrics` is
absent (hence defaulted false). -/
def wdGateW : JVal := .jobj [("id", .jstr "w1"), ("status", .jstr "COMPLETE")]

/-- Witness for detail-sync gating: with `include_performance = true` and a
`COMPLETE` workout whose `has_pedaling_metrics` is falsy, no Detail Fetcher
call is recorded. -/
theorem detail_sync_gating_witness :
    ∃ i r cand, extract_workout_components extW wdGateW = .ok (i, r, cand) ∧
      (if true && pyEqStr cand.status "COMPLETE"
          && cand.has_pedaling_metrics.truthy
       then ([] : List JVal).length = 1 else ([] : List JVal) = []) :=
  detail_sync_gating extW pgW nowW true {} wdGateW _ _ [] rfl

/-- The achievement sync's success or failure is decided by the payload
alone: either it succeeds on every store or it fails with the same error on
every store. -/
theorem ach_result_shape (now : PDT) (wd : JVal) :
    (∀ st : Store, ∃ s, sync_workout_achievements now st wd = .ok s) ∨
    (∃ e, ∀ st : Store, sync_workout_achievements now st wd = .error e) := by
  cases hx : wd.get "id" with
  | error e =>
      exact .inr ⟨e, fun st => by
        simp [sync_workout_achievements, Bind.bind, Except.bind, Pure.pure, Except.pure, hx]⟩
  | ok wid =>
    by_cases h1 : (!wid.truthy) = true
    · exact .inl fun st => ⟨st, by
        simp [sync_workout_achievements, Bind.bind, Except.bind, Pure.pure, Except.pure, hx, h1]⟩
    · cases hd : wd.getD "achievement_templates" (.jarr []) with
      | error e =>
          exact .inr ⟨e, fun st => by
            simp [sync_workout_achievements, Bind.bind, Except.bind, Pure.pure, Except.pure, hx, h1, hd]⟩
      | ok ach =>
        by_cases h2 : (!ach.truthy) = true
        · exact .inl fun st => ⟨st, by
            simp [sync_workout_achievements, Bind.bind, Except.bind, Pure.pure, Except.pure, hx, h1, hd, h2]⟩
        · cases hl : pyLen ach with
          | error e =>
              exact .inr ⟨e, fun st => by
                simp [sync_workout_achievements, Bind.bind, Except.bind, Pure.pure, Except.pure,
                  hx, h1, hd, h2, hl]⟩
          | ok n =>
            cases ht : transform_achievement_data wid ach with
            | error e =>
                exact .inr ⟨e, fun st => by
                  simp [sync_workout_achievements, Bind.bind, Except.bind, Pure.pure, Except.pure,
                    hx, h1, hd, h2, hl, ht]⟩
            | ok rows =>
                refine .inl fun st => ⟨{ st with achievements :=
                  ((st.achievements.filter (fun a => !(a.workout_id == wid))) ++
                    rows.map (fun r => { r with created_at := some now })) }, ?_⟩
                simp [sync_workout_achievements, Bind.bind, Except.bind,
                  Pure.pure, Except.pure, hx, h1, hd, h2, hl, ht]

/-- Whether a payload's reconciliation raises — by `ach_result_shape` and
the infallibility of the upserts this depends on the payload alone, so it
is probed at the empty store. -/
def reconcileFails (ext : Externals) (now : PDT) (wd : JVal) : Bool :=
  match extract_workout_components ext wd with
  | .error _ => true
  | .ok _ =>
      match sync_workout_achievements now {} wd with
      | .ok _ => false
      | .error _ => true

/-- Whether component extraction succeeds for a payload (equivalently,
whether the run's created/updated increment is reached). -/
def extractOkB (ext : Externals) (wd : JVal) : Bool :=
  match extract_workout_components ext wd with
  | .ok _ => true
  | .error _ => false

/-- Two stores agreeing on the tables the per-workout loop never rewrites
wholesale: `users`, `workouts` (up to the workout upsert itself) and the
ledger. -/
def sameFrame (a b : Store) : Prop :=
  a.users = b.users ∧ a.workouts = b.workouts ∧ a.sync_logs = b.sync_logs

theorem sameFrame_refl (a : Store) : sameFrame a a := ⟨rfl, rfl, rfl⟩

theorem sameFrame_trans {a b c : Store} (h1 : sameFrame a b)
    (h2 : sameFrame b c) : sameFrame a c :=
  ⟨h1.1.trans h2.1, h1.2.1.trans h2.2.1, h1.2.2.trans h2.2.2⟩

/-- The instructor upsert rewrites only the `instructors` table. -/
theorem upsert_instructor_frame (now : PDT) (st : Store) (cand : Instructor) :
    sameFrame (upsert_instructor now st cand) st := by
  unfold upsert_instructor
  cases st.instructors.find? (fun i => i.id == cand.id) <;> exact ⟨rfl, rfl, rfl⟩

/-- The ride upsert rewrites only the `rides` table. -/
theorem upsert_ride_frame (now : PDT) (st : Store) (cand : Ride) :
    sameFrame (upsert_ride now st cand) st := by
  unfold upsert_ride
  cases st.rides.find? (fun r => r.id == cand.id) <;> exact ⟨rfl, rfl, rfl⟩

/-- The summary upsert rewrites only the `perf_summaries` table. -/
theorem upsertSummaryStep_frame (now : PDT) (st : Store) (wid : JVal)
    (cand : WorkoutPerformanceSummary) :
    sameFrame (upsertSummaryStep now st wid cand) st := by
  unfold upsertSummaryStep
  cases st.perf_summaries.find? (fun s => s.workout_id == wid) <;>
    exact ⟨rfl, rfl, rfl⟩

/-- The metrics delete-and-insert rewrites only the `perf_metrics` table. -/
theorem metricsReplaceStep_frame (now : PDT) (st1 : Store) (wid md : JVal) :
    sameFrame (metricsReplaceStep now st1 wid md) st1 := by
  unfold metricsReplaceStep
  by_cases h : md.truthy = true
  · rw [if_pos h]
    cases transform_performance_metrics_data wid md <;> exact ⟨rfl, rfl, rfl⟩
  · rw [if_neg h]
    exact sameFrame_refl st1

/-- The detail sync rewrites only summary and metric tables. -/
theorem sync_perf_frame (ext : Externals) (pg : JVal → Except PyErr JVal)
    (now : PDT) (st : Store) (wid : JVal) :
    sameFrame (sync_workout_performance_data ext pg now st wid) st := by
  unfold sync_workout_performance_data
  repeat' split
  all_goals
    first
      | exact sameFrame_refl _
      | exact upsertSummaryStep_frame now st wid _
      | exact metricsReplaceStep_frame now _ wid _
      | exact sameFrame_trans (metricsReplaceStep_frame now _ wid _)
          (upsertSummaryStep_frame now st wid _)

/-- A successful achievement sync rewrites only the `achievements` table. -/
theorem sync_workout_achievements_frame (now : PDT) (st s : Store) (wd : JVal)
    (h : sync_workout_achievements now st wd = .ok s) : sameFrame s st := by
  unfold sync_workout_achievements at h
  simp only [Bind.bind, Except.bind] at h
  cases hx : wd.get "id" with
  | error e => simp only [hx] at h; simp [Pure.pure, Except.pure] at h
  | ok wid =>
    simp only [hx] at h
    by_cases h1 : (!wid.truthy) = true
    · rw [if_pos h1] at h
      simp only [Pure.pure, Except.pure, Except.ok.injEq] at h
      rw [← h]; exact sameFrame_refl st
    · rw [if_neg h1] at h
      cases hd : wd.getD "achievement_templates" (.jarr []) with
      | error e => simp only [hd] at h; simp [Pure.pure, Except.pure] at h
      | ok ach =>
        simp only [hd] at h
        by_cases h2 : (!ach.truthy) = true
        · rw [if_pos h2] at h
          simp only [Pure.pure, Except.pure, Except.ok.injEq] at h
          rw [← h]; exact sameFrame_refl st
        · rw [if_neg h2] at h
          cases hl : pyLen ach with
          | error e => simp only [hl] at h; simp [Pure.pure, Except.pure] at h
          | ok n =>
            simp only [hl] at h
            cases ht : transform_achievement_data wid ach with
            | error e => simp only [ht] at h; simp [Pure.pure, Except.pure] at h
            | ok rows =>
              simp only [ht, Pure.pure, Except.pure, Except.ok.injEq] at h
              rw [← h]; exact sameFrame_refl st

/-- The workout upsert keeps `users` and the ledger, preserves every
workout-id already present, and ensures a row matching the candidate's id
is present afterwards. -/
theorem upsert_workout_store (now : PDT) (st : Store) (cand : Workout) :
    (upsert_workout now st cand).1.users = st.users ∧
    (upsert_workout now st cand).1.sync_logs = st.sync_logs ∧
    (∀ v, (∃ w ∈ st.workouts, (w.id == v) = true) →
      ∃ w ∈ (upsert_workout now st cand).1.workouts, (w.id == v) = true) ∧
    (∃ w ∈ (upsert_workout now st cand).1.workouts, (w.id == cand.id) = true) := by
  unfold upsert_workout
  cases hf : st.workouts.find? (fun w => w.id == cand.id) with
  | some ex =>
      obtain ⟨pre, post, hl, -, hupd⟩ := find?_updateFirst_split
        (fun w => w.id == cand.id) (fun _ => workoutUpdateFields ex cand now)
        st.workouts ex hf
      have hexid := List.find?_some hf
      refine ⟨rfl, rfl, ?_, ?_⟩
      · rintro v ⟨w, hw, hv⟩
        rw [hl] at hw
        rcases List.mem_append.mp hw with hw | hw
        · exact ⟨w, by
            show w ∈ updateFirst (fun w => w.id == cand.id) _ st.workouts
            rw [hupd]; exact List.mem_append.mpr (.inl hw), hv⟩
        · rcases List.mem_cons.mp hw with rfl | hw
          · refine ⟨workoutUpdateFields w cand now, by
              show _ ∈ updateFirst (fun w => w.id == cand.id) _ st.workouts
              rw [hupd]
              exact List.mem_append.mpr (.inr (List.mem_cons_self _ _)), ?_⟩
            show (w.id == v) = true
            exact hv
          · exact ⟨w, by
              show w ∈ updateFirst (fun w => w.id == cand.id) _ st.workouts
              rw [hupd]
              exact List.mem_append.mpr (.inr (List.mem_cons_of_mem _ hw)), hv⟩
      · refine ⟨workoutUpdateFields ex cand now, by
          show _ ∈ updateFirst (fun w => w.id == cand.id) _ st.workouts
          rw [hupd]
          exact List.mem_append.mpr (.inr (List.mem_cons_self _ _)), ?_⟩
        show (ex.id == cand.id) = true
        exact hexid
  | none =>
      refine ⟨rfl, rfl, ?_, ?_⟩
      · rintro v ⟨w, hw, hv⟩
        exact ⟨w, List.mem_append.mpr (.inl hw), hv⟩
      · refine ⟨{ cand with created_at := some now, updated_at := some now },
          List.mem_append.mpr (.inr (List.mem_cons_self _ _)), ?_⟩
        show (cand.id == cand.id) = true
        exact JVal.beq_refl cand.id

/-- Store effects of a successful per-payload tail: `users` and the ledger
are untouched, already-present workout ids survive, and a row matching the
candidate's id is present. -/
theorem reconcileTail_succeeded_store (ext : Externals)
    (pg : JVal → Except PyErr JVal) (now : PDT) (incl : Bool) (stB : Store)
    (wd : JVal) (cand : Workout) (st2 : Store) (isNew : Bool)
    (calls : List JVal)
    (h : reconcileTail ext pg now incl stB wd cand = .succeeded st2 isNew calls) :
    st2.users = stB.users ∧ st2.sync_logs = stB.sync_logs ∧
    (∀ v, (∃ w ∈ stB.workouts, (w.id == v) = true) →
       ∃ w ∈ st2.workouts, (w.id == v) = true) ∧
    (∃ w ∈ st2.workouts, (w.id == cand.id) = true) := by
  unfold reconcileTail at h
  rcases hup : upsert_workout now stB cand with ⟨stC, w, isNew2⟩
  simp only [hup] at h
  obtain ⟨huu, hus, hmono, hcand⟩ := upsert_workout_store now stB cand
  rw [hup] at huu hus hmono hcand
  cases hach : sync_workout_achievements now stC wd with
  | error e => simp only [hach] at h; exact absurd h (by simp)
  | ok stD =>
      simp only [hach] at h
      have hfrD := sync_workout_achievements_frame now stC stD wd hach
      by_cases hg : (incl && pyEqStr w.status "COMPLETE"
          && w.has_pedaling_metrics.truthy) = true
      · rw [if_pos hg] at h
        cases h
        have hfrP := sync_perf_frame ext pg now stD w.id
        refine ⟨hfrP.1.trans (hfrD.1.trans huu),
          hfrP.2.2.trans (hfrD.2.2.trans hus), ?_, ?_⟩
        · intro v hv
          rw [hfrP.2.1, hfrD.2.1]
          exact hmono v hv
        · rw [hfrP.2.1, hfrD.2.1]
          exact hcand
      · rw [if_neg hg] at h
        cases h
        refine ⟨hfrD.1.trans huu, hfrD.2.2.trans hus, ?_, ?_⟩
        · intro v hv
          rw [hfrD.2.1]
          exact hmono v hv
        · rw [hfrD.2.1]
          exact hcand

/-- Store effects of a successful `syncOne`: `users` and the ledger are
untouched, already-present workout ids survive, and a row matching the
extracted candidate's id is present. -/
theorem syncOne_succeeded_store (ext : Externals)
    (pg : JVal → Except PyErr JVal) (now : PDT) (incl : Bool) (st : Store)
    (wd : JVal) (st2 : Store) (isNew : Bool) (calls : List JVal)
    (h : syncOne ext pg now incl st wd = .succeeded st2 isNew calls) :
    st2.users = st.users ∧ st2.sync_logs = st.sync_logs ∧
    (∀ v, (∃ w ∈ st.workouts, (w.id == v) = true) →
       ∃ w ∈ st2.workouts, (w.id == v) = true) ∧
    (∀ iO rO cand, extract_workout_components ext wd = .ok (iO, rO, cand) →
       ∃ w ∈ st2.workouts, (w.id == cand.id) = true) := by
  unfold syncOne at h
  cases hx : extract_workout_components ext wd with
  | error e => simp only [hx] at h; exact absurd h (by simp)
  | ok trip =>
    obtain ⟨iO0, rO0, cand0⟩ := trip
    simp only [hx] at h
    have hfin : ∀ stB : Store, sameFrame stB st →
        reconcileTail ext pg now incl stB wd cand0 = .succeeded st2 isNew calls →
        st2.users = st.users ∧ st2.sync_logs = st.sync_logs ∧
        (∀ v, (∃ w ∈ st.workouts, (w.id == v) = true) →
           ∃ w ∈ st2.workouts, (w.id == v) = true) ∧
        (∀ iO rO cand, extract_workout_components ext wd = .ok (iO, rO, cand) →
           ∃ w ∈ st2.workouts, (w.id == cand.id) = true) := by
      intro stB hfr htail
      obtain ⟨hu, hl, hmono, hcand⟩ :=
        reconcileTail_succeeded_store ext pg now incl stB wd cand0 st2 isNew calls htail
      refine ⟨hu.trans hfr.1, hl.trans hfr.2.2, ?_, ?_⟩
      · intro v hv
        apply hmono
        rw [hfr.2.1]
        exact hv
      · intro iO rO cand h2
        rw [hx] at h2
        obtain ⟨-, -, rfl⟩ : iO0 = iO ∧ rO0 = rO ∧ cand0 = cand := by
          have := h2
          simp only [Except.ok.injEq, Prod.mk.injEq] at this
          exact ⟨this.1, this.2.1, this.2.2⟩
        exact hcand
    rw [← hx]
    cases iO0 with
    | none =>
        cases rO0 with
        | none => exact hfin st (sameFrame_refl st) h
        | some r => exact hfin _ (upsert_ride_frame now st r) h
    | some i =>
        cases rO0 with
        | none => exact hfin _ (upsert_instructor_frame now st i) h
        | some r =>
            exact hfin _ (sameFrame_trans
              (upsert_ride_frame now (upsert_instructor now st i) r)
              (upsert_instructor_frame now st i)) h

/-- Whether the achievement sync succeeds for a payload (probed at the
empty store; by `ach_result_shape` this is store-independent). -/
def achOkB (now : PDT) (wd : JVal) : Bool :=
  match sync_workout_achievements now {} wd with
  | .ok _ => true
  | .error _ => false

/-- When extraction succeeds, a payload's reconciliation fails exactly when
its achievement sync does. -/
theorem reconcileFails_of_extract_ok (ext : Externals) (now : PDT) (wd : JVal)
    (h : extractOkB ext wd = true) :
    reconcileFails ext now wd = !achOkB now wd := by
  unfold extractOkB at h
  unfold reconcileFails achOkB
  cases hx : extract_workout_components ext wd with
  | error e => rw [hx] at h; simp at h
  | ok t =>
      cases sync_workout_achievements now {} wd with
      | ok s => rfl
      | error e => rfl

/-- The per-payload tail either succeeds (when the payload's achievement
sync succeeds) or fails after the counter increment (when it does not),
for every store it is run against. -/
theorem reconcileTail_outcome (ext : Externals) (pg : JVal → Except PyErr JVal)
    (now : PDT) (incl : Bool) (stB : Store) (wd : JVal) (cand0 : Workout) :
    (∃ st2 isNew calls,
        reconcileTail ext pg now incl stB wd cand0 = .succeeded st2 isNew calls ∧
        achOkB now wd = true) ∨
    (∃ b, reconcileTail ext pg now incl stB wd cand0 = .failed (some b) ∧
        achOkB now wd = false) := by
  rcases hup : upsert_workout now stB cand0 with ⟨stC, w, isNew2⟩
  have hred : reconcileTail ext pg now incl stB wd cand0 =
      (match sync_workout_achievements now stC wd with
       | .error _ => OneOutcome.failed (some isNew2)
       | .ok stD =>
         if incl && pyEqStr w.status "COMPLETE"
             && w.has_pedaling_metrics.truthy then
           .succeeded (sync_workout_performance_data ext pg now stD w.id)
             isNew2 [w.id]
         else
           .succeeded stD isNew2 []) := by
    unfold reconcileTail
    rw [hup]
  cases hach : sync_workout_achievements now stC wd with
  | ok stD =>
      have hok : achOkB now wd = true := by
        rcases ach_result_shape now wd with hsh | ⟨e, hsh⟩
        · obtain ⟨s0, hs0⟩ := hsh {}
          simp [achOkB, hs0]
        · rw [hsh stC] at hach
          exact absurd hach (by simp)
      refine .inl ?_
      rw [hred]
      simp only [hach]
      by_cases hg : (incl && pyEqStr w.status "COMPLETE"
          && w.has_pedaling_metrics.truthy) = true
      · rw [if_pos hg]
        exact ⟨_, _, _, rfl, hok⟩
      · rw [if_neg hg]
        exact ⟨_, _, _, rfl, hok⟩
  | error e =>
      have hko : achOkB now wd = false := by
        rcases ach_result_shape now wd with hsh | ⟨e2, hsh⟩
        · obtain ⟨s0, hs0⟩ := hsh stC
          rw [hs0] at hach
          exact absurd hach (by simp)
        · simp [achOkB, hsh ({} : Store)]
      refine .inr ⟨isNew2, ?_, hko⟩
      rw [hred]
      simp only [hach]

/-- Outcome classification for a payload: success happens exactly when
`reconcileFails` is false; a failure before the counter increment is an
extraction failure; a failure after it is an achievement-sync failure. -/
theorem syncOne_outcome (ext : Externals) (pg : JVal → Except PyErr JVal)
    (now : PDT) (incl : Bool) (st : Store) (wd : JVal) :
    (∃ st2 isNew calls,
        syncOne ext pg now incl st wd = .succeeded st2 isNew calls ∧
        reconcileFails ext now wd = false ∧ extractOkB ext wd = true) ∨
    (syncOne ext pg now incl st wd = .failed none ∧
        reconcileFails ext now wd = true ∧ extractOkB ext wd = false) ∨
    (∃ b, syncOne ext pg now incl st wd = .failed (some b) ∧
        reconcileFails ext now wd = true ∧ extractOkB ext wd = true) := by
  cases hx : extract_workout_components ext wd with
  | error e =>
      exact .inr (.inl ⟨by simp [syncOne, hx], by simp [reconcileFails, hx],
        by simp [extractOkB, hx]⟩)
  | ok trip =>
    obtain ⟨iO0, rO0, cand0⟩ := trip
    have hextOk : extractOkB ext wd = true := by simp [extractOkB, hx]
    have hfin : ∀ stB : Store,
        syncOne ext pg now incl st wd =
          reconcileTail ext pg now incl stB wd cand0 →
        (∃ st2 isNew calls,
            syncOne ext pg now incl st wd = .succeeded st2 isNew calls ∧
            reconcileFails ext now wd = false ∧ extractOkB ext wd = true) ∨
        (syncOne ext pg now incl st wd = .failed none ∧
            reconcileFails ext now wd = true ∧ extractOkB ext wd = false) ∨
        (∃ b, syncOne ext pg now incl st wd = .failed (some b) ∧
            reconcileFails ext now wd = true ∧ extractOkB ext wd = true) := by
      intro stB hone
      rcases reconcileTail_outcome ext pg now incl stB wd cand0 with
        ⟨st2, isNew, calls, htail, hok⟩ | ⟨b, htail, hko⟩
      · refine .inl ⟨st2, isNew, calls, hone.trans htail, ?_, hextOk⟩
        rw [reconcileFails_of_extract_ok ext now wd hextOk, hok]
        rfl
      · refine .inr (.inr ⟨b, hone.trans htail, ?_, hextOk⟩)
        rw [reconcileFails_of_extract_ok ext now wd hextOk, hko]
        rfl
    cases iO0 with
    | none =>
        cases rO0 with
        | none => exact hfin st (by unfold syncOne; rw [hx])
        | some r => exact hfin (upsert_ride now st r) (by unfold syncOne; rw [hx])
    | some i =>
        cases rO0 with
        | none => exact hfin (upsert_instructor now st i) (by unfold syncOne; rw [hx])
        | some r =>
            exact hfin (upsert_ride now (upsert_instructor now st i) r)
              (by unfold syncOne; rw [hx])

/-- Counter accounting of the per-payload loop over dict payloads:
`processed` is untouched, `errors` grows by the number of failing payloads,
and `created + updated` grows by the number of payloads whose extraction
(and hence workout upsert) succeeds — including payloads that fail later,
during their achievement sync. -/
theorem syncLoop_spec (ext : Externals) (pg : JVal → Except PyErr JVal)
    (now : PDT) (incl : Bool) :
    ∀ (items : List JVal) (stats : Stats) (sess : PSession),
      (∀ p ∈ items, ∃ fs, p = .jobj fs) →
      ((syncLoop ext pg now incl items stats sess).1.processed =
         stats.processed ∧
       (syncLoop ext pg now incl items stats sess).1.errors =
         stats.errors + items.countP (reconcileFails ext now) ∧
       (syncLoop ext pg now incl items stats sess).1.created +
         (syncLoop ext pg now incl items stats sess).1.updated =
         stats.created + stats.updated + items.countP (extractOkB ext)) := by
  intro items
  induction items with
  | nil => intro stats sess _; simp [syncLoop]
  | cons p rest ih =>
    intro stats sess hobj
    obtain ⟨fs, rfl⟩ := hobj p (List.mem_cons_self _ _)
    have hrest := fun stats sess =>
      ih stats sess (fun x hx => hobj x (List.mem_cons_of_mem _ hx))
    rcases syncOne_outcome ext pg now incl sess.current (.jobj fs) with
      ⟨st2, isNew, calls, hs, hf, hx⟩ | ⟨hs, hf, hx⟩ | ⟨b, hs, hf, hx⟩
    · have hloop : syncLoop ext pg now incl (JVal.jobj fs :: rest) stats sess =
          syncLoop ext pg now incl rest
            (if isNew then { stats with created := stats.created + 1 }
             else { stats with updated := stats.updated + 1 })
            (PSession.commit { sess with current := st2 }) := by
        conv_lhs => rw [syncLoop]
        rw [hs]
      rw [hloop, List.countP_cons, List.countP_cons, hf, hx]
      by_cases hn : isNew = true
      · rw [if_pos hn]
        obtain ⟨c1, c2, c3⟩ := hrest { stats with created := stats.created + 1 }
          (PSession.commit { sess with current := st2 })
        rw [c1, c2, c3]
        refine ⟨rfl, ?_, ?_⟩ <;> (simp; try omega)
      · rw [if_neg hn]
        obtain ⟨c1, c2, c3⟩ := hrest { stats with updated := stats.updated + 1 }
          (PSession.commit { sess with current := st2 })
        rw [c1, c2, c3]
        refine ⟨rfl, ?_, ?_⟩ <;> (simp; try omega)
    · have hloop : syncLoop ext pg now incl (JVal.jobj fs :: rest) stats sess =
          syncLoop ext pg now incl rest
            { stats with errors := stats.errors + 1 } sess.rollback := by
        conv_lhs => rw [syncLoop]
        rw [hs]
        rfl
      rw [hloop, List.countP_cons, List.countP_cons, hf, hx]
      obtain ⟨c1, c2, c3⟩ := hrest { stats with errors := stats.errors + 1 }
        sess.rollback
      rw [c1, c2, c3]
      refine ⟨rfl, ?_, ?_⟩ <;> (simp; try omega)
    · cases b with
      | true =>
          have hloop : syncLoop ext pg now incl (JVal.jobj fs :: rest) stats sess =
              syncLoop ext pg now incl rest
                { { stats with created := stats.created + 1 } with
                  errors := stats.errors + 1 } sess.rollback := by
            conv_lhs => rw [syncLoop]
            rw [hs]
            rfl
          rw [hloop, List.countP_cons, List.countP_cons, hf, hx]
          obtain ⟨c1, c2, c3⟩ := hrest
            { { stats with created := stats.created + 1 } with
              errors := stats.errors + 1 } sess.rollback
          rw [c1, c2, c3]
          refine ⟨rfl, ?_, ?_⟩ <;> (simp; try omega)
      | false =>
          have hloop : syncLoop ext pg now incl (JVal.jobj fs :: rest) stats sess =
              syncLoop ext pg now incl rest
                { { stats with updated := stats.updated + 1 } with
                  errors := stats.errors + 1 } sess.rollback := by
            conv_lhs => rw [syncLoop]
            rw [hs]
            rfl
          rw [hloop, List.countP_cons, List.countP_cons, hf, hx]
          obtain ⟨c1, c2, c3⟩ := hrest
            { { stats with updated := stats.updated + 1 } with
              errors := stats.errors + 1 } sess.rollback
          rw [c1, c2, c3]
          refine ⟨rfl, ?_, ?_⟩ <;> (simp; try omega)

/-- One-step unfolding of the loop for a successful payload. -/
theorem syncLoop_cons_succeeded (ext : Externals) (pg : JVal → Except PyErr JVal)
    (now : PDT) (incl : Bool) (p : JVal) (rest : List JVal) (stats : Stats)
    (sess : PSession) (st2 : Store) (isNew : Bool) (calls : List JVal)
    (hso : syncOne ext pg now incl sess.current p = .succeeded st2 isNew calls) :
    syncLoop ext pg now incl (p :: rest) stats sess =
      syncLoop ext pg now incl rest
        (if isNew then { stats with created := stats.created + 1 }
         else { stats with updated := stats.updated + 1 })
        (PSession.commit { sess with current := st2 }) := by
  conv_lhs => rw [syncLoop]
  rw [hso]

/-- One-step unfolding of the loop for a failed dict payload: the handler's
log line evaluates, `errors` is incremented, the transaction rolled back,
and the loop continues. -/
theorem syncLoop_cons_failed (ext : Externals) (pg : JVal → Except PyErr JVal)
    (now : PDT) (incl : Bool) (p : JVal) (rest : List JVal) (stats : Stats)
    (sess : PSession) (counted : Option Bool) (a : JVal)
    (hso : syncOne ext pg now incl sess.current p = .failed counted)
    (hid : p.get "id" = .ok a) :
    syncLoop ext pg now incl (p :: rest) stats sess =
      syncLoop ext pg now incl rest
        { (match counted with
           | some true => { stats with created := stats.created + 1 }
           | some false => { stats with updated := stats.updated + 1 }
           | none => stats) with errors := stats.errors + 1 } sess.rollback := by
  cases counted with
  | none =>
      conv_lhs => rw [syncLoop]
      rw [hso, hid]
  | some b =>
      cases b with
      | true =>
          conv_lhs => rw [syncLoop]
          rw [hso, hid]
      | false =>
          conv_lhs => rw [syncLoop]
          rw [hso, hid]

/-- One-step unfolding of the loop for a failed non-dict payload: the
handler's own log line raises, the function-level handler increments
`errors` and rolls back, and the remaining batch is abandoned. -/
theorem syncLoop_cons_aborted (ext : Externals) (pg : JVal → Except PyErr JVal)
    (now : PDT) (incl : Bool) (p : JVal) (rest : List JVal) (stats : Stats)
    (sess : PSession) (counted : Option Bool) (e : PyErr)
    (hso : syncOne ext pg now incl sess.current p = .failed counted)
    (hid : p.get "id" = .error e) :
    syncLoop ext pg now incl (p :: rest) stats sess =
      ({ (match counted with
          | some true => { stats with created := stats.created + 1 }
          | some false => { stats with updated := stats.updated + 1 }
          | none => stats) with errors := stats.errors + 1 }, sess.rollback) := by
  cases counted with
  | none =>
      conv_lhs => rw [syncLoop]
      rw [hso, hid]
  | some b =>
      cases b with
      | true =>
          conv_lhs => rw [syncLoop]
          rw [hso, hid]
      | false =>
          conv_lhs => rw [syncLoop]
          rw [hso, hid]

/-- A workout id present in both committed and current state survives the
rest of the loop into the final committed state (no operation in the loop
deletes workout rows, and updates never change a row's id). -/
theorem syncLoop_mono_workouts (ext : Externals) (pg : JVal → Except PyErr JVal)
    (now : PDT) (incl : Bool) :
    ∀ (items : List JVal) (stats : Stats) (sess : PSession) (v : JVal),
      (∃ w ∈ sess.committed.workouts, (w.id == v) = true) →
      (∃ w ∈ sess.current.workouts, (w.id == v) = true) →
      ∃ w ∈ (syncLoop ext pg now incl items stats sess).2.committed.workouts,
        (w.id == v) = true := by
  intro items
  induction items with
  | nil => intro stats sess v hcmt _; simpa [syncLoop] using hcmt
  | cons p rest ih =>
    intro stats sess v hcmt hcur
    cases hso : syncOne ext pg now incl sess.current p with
    | succeeded st2 isNew calls =>
        rw [syncLoop_cons_succeeded ext pg now incl p rest stats sess st2 isNew
          calls hso]
        obtain ⟨-, -, hmono, -⟩ :=
          syncOne_succeeded_store ext pg now incl sess.current p st2 isNew calls hso
        exact ih _ _ v (hmono v hcur) (hmono v hcur)
    | failed counted =>
        cases hid : p.get "id" with
        | ok a =>
            rw [syncLoop_cons_failed ext pg now incl p rest stats sess counted
              a hso hid]
            exact ih _ _ v hcmt hcmt
        | error e =>
            rw [syncLoop_cons_aborted ext pg now incl p rest stats sess counted
              e hso hid]
            exact hcmt

/-- The `users` table of the final committed state: once committed and
current agree on it, nothing in the loop changes it. -/
theorem syncLoop_users_inv (ext : Externals) (pg : JVal → Except PyErr JVal)
    (now : PDT) (incl : Bool) :
    ∀ (items : List JVal) (stats : Stats) (sess : PSession) (U : List User),
      sess.committed.users = U → sess.current.users = U →
      (syncLoop ext pg now incl items stats sess).2.committed.users = U := by
  intro items
  induction items with
  | nil => intro stats sess U hc _; simpa [syncLoop] using hc
  | cons p rest ih =>
    intro stats sess U hc hcur
    cases hso : syncOne ext pg now incl sess.current p with
    | succeeded st2 isNew calls =>
        rw [syncLoop_cons_succeeded ext pg now incl p rest stats sess st2 isNew
          calls hso]
        obtain ⟨hu, -, -, -⟩ :=
          syncOne_succeeded_store ext pg now incl sess.current p st2 isNew calls hso
        exact ih _ _ U (hu.trans hcur) (hu.trans hcur)
    | failed counted =>
        cases hid : p.get "id" with
        | ok a =>
            rw [syncLoop_cons_failed ext pg now incl p rest stats sess counted
              a hso hid]
            exact ih _ _ U hc hc
        | error e =>
            rw [syncLoop_cons_aborted ext pg now incl p rest stats sess counted
              e hso hid]
            exact hc

/-- Every payload in a batch of dict payloads whose reconciliation does not
raise ends up durably persisted: a workout row matching its extracted id is
in the final committed state. -/
theorem syncLoop_persists (ext : Externals) (pg : JVal → Except PyErr JVal)
    (now : PDT) (incl : Bool) :
    ∀ (items : List JVal) (stats : Stats) (sess : PSession),
      (∀ x ∈ items, ∃ fs, x = .jobj fs) →
      ∀ p ∈ items, reconcileFails ext now p = false →
      ∀ iO rO cand, extract_workout_components ext p = .ok (iO, rO, cand) →
      ∃ w ∈ (syncLoop ext pg now incl items stats sess).2.committed.workouts,
        (w.id == cand.id) = true := by
  intro items
  induction items with
  | nil => intro stats sess _ p hp; exact absurd hp (List.not_mem_nil p)
  | cons q rest ih =>
    intro stats sess hobj p hp hfail iO rO cand hex
    rcases List.mem_cons.mp hp with rfl | hp2
    · rcases syncOne_outcome ext pg now incl sess.current p with
        ⟨st2, isNew, calls, hso, hf, hx⟩ | ⟨hso, hf, hx⟩ | ⟨b, hso, hf, hx⟩
      · rw [syncLoop_cons_succeeded ext pg now incl p rest stats sess st2 isNew
          calls hso]
        obtain ⟨-, -, -, hcand⟩ :=
          syncOne_succeeded_store ext pg now incl sess.current p st2 isNew calls hso
        have hpres := hcand iO rO cand hex
        exact syncLoop_mono_workouts ext pg now incl rest _ _ cand.id hpres hpres
      · rw [hf] at hfail
        exact absurd hfail (by simp)
      · rw [hf] at hfail
        exact absurd hfail (by simp)
    · obtain ⟨fs, rfl⟩ := hobj q (List.mem_cons_self _ _)
      have hobj2 : ∀ x ∈ rest, ∃ fs, x = JVal.jobj fs :=
        fun x hx => hobj x (List.mem_cons_of_mem _ hx)
      cases hso : syncOne ext pg now incl sess.current (.jobj fs) with
      | succeeded st2 isNew calls =>
          rw [syncLoop_cons_succeeded ext pg now incl (.jobj fs) rest stats sess
            st2 isNew calls hso]
          exact ih _ _ hobj2 p hp2 hfail iO rO cand hex
      | failed counted =>
          have hid : (JVal.jobj fs).get "id" =
              .ok ((jlookup fs "id").getD .jnull) := rfl
          rw [syncLoop_cons_failed ext pg now incl (.jobj fs) rest stats sess
            counted _ hso hid]
          exact ih _ _ hobj2 p hp2 hfail iO rO cand hex

/-- C1 counterexample — a payload whose achievement sync raises (here an
achievement list holding a non-dict element) after the workout upsert
counts in BOTH `created` and `errors`: a batch of one such payload ends
with `created = 1` and `errors = 1` although the one payload failed and
nothing was persisted — the claim's "errored counting only the failing
payloads, created+updated counting the rest" does not hold. -/
theorem created_counts_failing_payload_cex :
    sync_workouts extW pgW nowW ⟨{}, {}⟩
        (.ok (.jobj [("data", .jarr [.jobj [("id", .jstr "w1"),
          ("achievement_templates", .jarr [.jnum 5])]])])) true =
      ({ processed := 1, created := 1, updated := 0, errors := 1 },
       ⟨{}, {}⟩) :=
  rfl

/-- C1 amended — Failure containment over a batch of dict workout payloads:
each payload that raises during its reconciliation increments `errored`,
its uncommitted changes are rolled back, and processing continues to the
next payload; the run completes with `processed` equal to the batch size,
`errored` equal to the number of failing payloads, and `created + updated`
equal to the number of payloads whose extraction (and hence workout
upsert) succeeded — which includes payloads that failed later, during
their achievement sync, so such a payload counts in both `created/updated`
and `errored`; and every payload that completes without raising is durably
persisted (a workout row matching its id is in the committed state).
(A non-dict payload would additionally abort the remainder of the batch,
because the error handler's own log line raises; the dict hypothesis rules
that out.) -/
theorem failure_containment (ext : Externals) (pg : JVal → Except PyErr JVal)
    (now : PDT) (incl : Bool) (sess : PSession) (wdo dataV : JVal)
    (items : List JVal)
    (h1 : wdo.getD "data" (.jarr []) = .ok dataV)
    (h2 : pySeq dataV = .ok items)
    (hobj : ∀ p ∈ items, ∃ fs, p = .jobj fs) :
    (sync_workouts ext pg now sess (.ok wdo) incl).1.processed = items.length ∧
    (sync_workouts ext pg now sess (.ok wdo) incl).1.errors =
      items.countP (reconcileFails ext now) ∧
    (sync_workouts ext pg now sess (.ok wdo) incl).1.created +
      (sync_workouts ext pg now sess (.ok wdo) incl).1.updated =
      items.countP (extractOkB ext) ∧
    (∀ p ∈ items, reconcileFails ext now p = false →
      ∀ iO rO cand, extract_workout_components ext p = .ok (iO, rO, cand) →
      ∃ w ∈ (sync_workouts ext pg now sess (.ok wdo) incl).2.committed.workouts,
        (w.id == cand.id) = true) := by
  have hred : sync_workouts ext pg now sess (.ok wdo) incl =
      syncLoop ext pg now incl items
        { processed := items.length, created := 0, updated := 0, errors := 0 }
        sess := by
    unfold sync_workouts
    simp only [Bind.bind, Except.bind, h1, h2, pyLen, Except.map]
    rfl
  rw [hred]
  obtain ⟨c1, c2, c3⟩ := syncLoop_spec ext pg now incl items
    { processed := items.length, created := 0, updated := 0, errors := 0 }
    sess hobj
  refine ⟨by rw [c1], by rw [c2]; simp, by rw [c3]; simp, ?_⟩
  intro p hp hf iO rO cand hex
  exact syncLoop_persists ext pg now incl items _ sess hobj p hp hf iO rO cand hex

/-- The spec scenario's batch: 5 payloads, payload 3 malformed (missing
its identity field). -/
def batch5W : List JVal :=
  [.jobj [("id", .jstr "w1")], .jobj [("id", .jstr "w2")],
   .jobj [("username", .jstr "x")], .jobj [("id", .jstr "w4")],
   .jobj [("id", .jstr "w5")]]

def listing5W : JVal := .jobj [("data", .jarr batch5W)]

/-- Witness for failure containment: the spec's own scenario — a batch of
5 payloads where payload 3 is malformed (missing its identity field)
finishes with processed 5, errored 1, created+updated 4, and the four
good payloads durably persisted. -/
theorem failure_containment_witness :
    (sync_workouts extW pgW nowW ⟨{}, {}⟩ (.ok listing5W) true).1 =
      { processed := 5, created := 4, updated := 0, errors := 1 } ∧
    (∀ p ∈ batch5W, reconcileFails extW nowW p = false →
      ∀ iO rO cand, extract_workout_components extW p = .ok (iO, rO, cand) →
      ∃ w ∈ (sync_workouts extW pgW nowW ⟨{}, {}⟩
          (.ok listing5W) true).2.committed.workouts,
        (w.id == cand.id) = true) := by
  have hobj : ∀ p ∈ batch5W, ∃ fs, p = JVal.jobj fs := by
    intro p hp
    simp only [batch5W, List.mem_cons, List.not_mem_nil, or_false] at hp
    rcases hp with rfl | rfl | rfl | rfl | rfl <;> exact ⟨_, rfl⟩
  obtain ⟨a1, a2, a3, a4⟩ := failure_containment extW pgW nowW true ⟨{}, {}⟩
    listing5W (.jarr batch5W) batch5W rfl rfl hobj
  exact ⟨rfl, a4⟩

/-- C6 counterexample — the User upsert is NOT its own atomic unit: with a
fresh store, a run whose single (first) workout payload fails rolls back
the pending user upsert along with it, so the final store holds no user
row at all, even though the user sync had already run. -/
theorem user_upsert_rolled_back_cex :
    ((full_sync extW pgW nowW (.ok userPayloadW)
        (.ok (.jobj [("data", .jarr [.jobj [("username", .jstr "x")]])]))
        {} none true).map (fun r => (r.2.users.length, r.1.stats.errors))) =
      .ok (0, 1) :=
  rfl

/-- C6 amended — the User upsert shares the run's session and is only made
durable by the first `session.commit()`, which happens inside the first
successful workout's reconciliation (or, failing that, at the final ledger
commit).  Once the FIRST payload of the batch reconciles successfully, the
user rows visible in the session are committed with it and no later
workout failure (rollback) can discard them: after `sync_workouts` the
committed `users` table equals the session's pre-batch `users` table.  A
failure of the first workout before any commit, by contrast, rolls the
pending user upsert back, as the counterexample shows. -/
theorem user_upsert_transaction_coupling (ext : Externals)
    (pg : JVal → Except PyErr JVal) (now : PDT) (incl : Bool)
    (sess : PSession) (wdo dataV p : JVal) (rest : List JVal)
    (h1 : wdo.getD "data" (.jarr []) = .ok dataV)
    (h2 : pySeq dataV = .ok (p :: rest))
    (hfirst : ∃ st2 isNew calls,
      syncOne ext pg now incl sess.current p = .succeeded st2 isNew calls) :
    (sync_workouts ext pg now sess (.ok wdo) incl).2.committed.users =
      sess.current.users := by
  have hred : sync_workouts ext pg now sess (.ok wdo) incl =
      syncLoop ext pg now incl (p :: rest)
        { processed := (p :: rest).length, created := 0, updated := 0,
          errors := 0 } sess := by
    unfold sync_workouts
    simp only [Bind.bind, Except.bind, h1, h2, pyLen, Except.map]
    rfl
  rw [hred]
  obtain ⟨st2, isNew, calls, hso⟩ := hfirst
  rw [syncLoop_cons_succeeded ext pg now incl p rest _ sess st2 isNew calls hso]
  obtain ⟨hu, -, -, -⟩ :=
    syncOne_succeeded_store ext pg now incl sess.current p st2 isNew calls hso
  exact syncLoop_users_inv ext pg now incl rest _ _ sess.current.users hu hu

/-- Witness for the transaction coupling: a pending user row in the current
state survives a batch whose first payload succeeds and whose second
fails. -/
theorem user_upsert_transaction_coupling_witness :
    (sync_workouts extW pgW nowW ⟨{}, userStoreW⟩
        (.ok (.jobj [("data", .jarr [.jobj [("id", .jstr "w1")],
          .jobj [("username", .jstr "x")]])])) true).2.committed.users =
      (⟨{}, userStoreW⟩ : PSession).current.users :=
  user_upsert_transaction_coupling extW pgW nowW true ⟨{}, userStoreW⟩
    (.jobj [("data", .jarr [.jobj [("id", .jstr "w1")],
      .jobj [("username", .jstr "x")]])])
    (.jarr [.jobj [("id", .jstr "w1")], .jobj [("username", .jstr "x")]])
    (.jobj [("id", .jstr "w1")]) [.jobj [("username", .jstr "x")]]
    rfl rfl ⟨_, _, _, rfl⟩
